import Mathlib

/-!
Verification of the reviews-app backend (`backend/server.js`).

The relational store (games, reviews, categories, genres, archived_reviews)
is embedded as lists of rows; each SQL statement of the route handlers is
translated into a pure function on that store.  Route handlers that open a
transaction are written in a small state monad `Tx` that models Postgres
transaction semantics: a committed database, a working database visible to
statements inside the transaction, the aborted state a Postgres transaction
enters after a failed statement (subsequent statements fail, COMMIT acts as
ROLLBACK), and a fault-injection counter that can make any single write
statement raise a database error.  The monad also records a trace of
BEGIN/COMMIT/ROLLBACK events so that transaction discipline can be audited.

Identifier conventions: uuid values and SERIAL ids are both drawn from a
single fresh-id supply `nextId`.  JavaScript truthiness on request-body id
fields (`x || null`) is modelled by `jsId` (0 is falsy) and on string fields
by `jsStr` (the empty string is falsy).  Ids stored in the database (uuids,
SERIAL values starting at 1) are never falsy in JavaScript, so tests such as
`if (gameId)` on values read back from the database are translated as plain
`Option` matches.
-/

namespace ReviewsApp

/-- A row of the `games` table. -/
structure Game where
  id : Nat
  game_name : String
deriving DecidableEq, Repr

/-- A row of the `categories` table. -/
structure Category where
  id : Nat
  name : String
deriving DecidableEq, Repr

/-- A row of the `genres` table. -/
structure Genre where
  id : Nat
  name : String
  category_id : Option Nat
deriving DecidableEq, Repr

/-- A row of the `reviews` table (including the legacy text `genre` column
next to the normalized `genre_id`). -/
structure Review where
  id : Nat
  game_id : Option Nat
  title : Option String
  review_text : Option String
  rating : Option Int
  positive_points : List String
  negative_points : List String
  tags : List String
  genre_id : Option Nat
  genre : Option String
deriving DecidableEq, Repr

/-- The JSON object stored in `archived_reviews.review_json`.  Fields are
optional: `none` stands for an absent (or null) key. -/
structure ReviewJson where
  title : Option String
  game_name : Option String
  review_text : Option String
  rating : Option Int
  genre : Option String
  categoryName : Option String
  positive_points : Option (List String)
  negative_points : Option (List String)
  tags : Option (List String)
deriving DecidableEq, Repr

/-- A row of the `archived_reviews` table. -/
structure ArchivedReview where
  id : Nat
  review_json : ReviewJson
deriving DecidableEq, Repr

/-- The database: the five tables plus the fresh-identifier supply. -/
structure DB where
  games : List Game
  reviews : List Review
  categories : List Category
  genres : List Genre
  archived : List ArchivedReview
  nextId : Nat
deriving DecidableEq, Repr

/-- JavaScript `x || null` on an optional id: null/undefined and 0 are falsy. -/
def jsId : Option Nat → Option Nat
  | some n => if n = 0 then none else some n
  | none => none

/-- JavaScript `x || null` (and `if (x)`) on an optional string: null/undefined
and the empty string are falsy. -/
def jsStr : Option String → Option String
  | some s => if s = "" then none else some s
  | none => none

/-- SQL `lower()` as applied to names by the unique indexes and upserts,
modelled character-wise on the string's character list (so that it can be
evaluated by the kernel on concrete names). -/
def lowerStr (s : String) : String := ⟨s.data.map Char.toLower⟩

/-- JavaScript `String.prototype.trim()`, modelled on the character list. -/
def trimStr (s : String) : String :=
  ⟨((s.data.dropWhile Char.isWhitespace).reverse.dropWhile Char.isWhitespace).reverse⟩

/-- SQL `COALESCE(a, b)`. -/
def coalesce {α : Type} : Option α → Option α → Option α
  | some x, _ => some x
  | none, b => b

/-- JSONB shallow-merge semantics for one field of `a || b`: a key present in
`b` overwrites, an absent key keeps the value from `a`. -/
def override {α : Type} : Option α → Option α → Option α
  | o, none => o
  | _, some v => some v

/-- `a || b` on two review JSON objects (keys of `b` win). -/
def mergeJson (o n : ReviewJson) : ReviewJson :=
  ⟨override o.title n.title, override o.game_name n.game_name,
   override o.review_text n.review_text, override o.rating n.rating,
   override o.genre n.genre, override o.categoryName n.categoryName,
   override o.positive_points n.positive_points,
   override o.negative_points n.negative_points, override o.tags n.tags⟩

/-- `SELECT * FROM games WHERE game_name = $1 LIMIT 1` (exact match). -/
def findGameByName (db : DB) (name : String) : Option Game :=
  db.games.find? (fun g => g.game_name = name)

/-- Lookup of a game row by id. -/
def findGameById (db : DB) (i : Nat) : Option Game :=
  db.games.find? (fun g => g.id = i)

/-- First category whose name matches case-insensitively (the unique row of
the `lower(name)` unique index, when the table is well formed). -/
def findCategoryByLower (db : DB) (name : String) : Option Category :=
  db.categories.find? (fun c => lowerStr c.name = lowerStr name)

/-- Lookup of a category row by id. -/
def findCategoryById (db : DB) (i : Nat) : Option Category :=
  db.categories.find? (fun c => c.id = i)

/-- First genre whose name matches case-insensitively. -/
def findGenreByLower (db : DB) (name : String) : Option Genre :=
  db.genres.find? (fun g => lowerStr g.name = lowerStr name)

/-- Lookup of a genre row by id. -/
def findGenreById (db : DB) (i : Nat) : Option Genre :=
  db.genres.find? (fun g => g.id = i)

/-- Lookup of a review row by id. -/
def findReviewById (db : DB) (i : Nat) : Option Review :=
  db.reviews.find? (fun r => r.id = i)

/-- `SELECT id FROM reviews WHERE game_id = $1 LIMIT 1`. -/
def findReviewByGameId (db : DB) (gid : Nat) : Option Review :=
  db.reviews.find? (fun r => r.game_id = some gid)

/-- Lookup of an archived review by id. -/
def findArchivedById (db : DB) (i : Nat) : Option ArchivedReview :=
  db.archived.find? (fun a => a.id = i)

/-- `INSERT INTO categories (name) VALUES ($1) ON CONFLICT (lower(name))
DO UPDATE SET name = EXCLUDED.name RETURNING id, name`: on conflict the
existing row keeps its id and is renamed to the exact casing provided. -/
def upsertCategory (db : DB) (name : String) : (Nat × String) × DB :=
  match findCategoryByLower db name with
  | some c =>
      ((c.id, name),
       { db with categories :=
           db.categories.map fun x => if x.id = c.id then { x with name := name } else x })
  | none =>
      ((db.nextId, name),
       { db with categories := db.categories ++ [⟨db.nextId, name⟩],
                 nextId := db.nextId + 1 })

/-- `INSERT INTO genres (name, category_id) VALUES ($1, $2) ON CONFLICT
(lower(name)) DO UPDATE SET category_id = COALESCE(EXCLUDED.category_id,
genres.category_id) RETURNING id, name, category_id`: on conflict only the
category link is coalesced; the stored name keeps its original casing. -/
def upsertGenre (db : DB) (name : String) (catId : Option Nat) : Genre × DB :=
  match findGenreByLower db name with
  | some g =>
      let g2 : Genre := { g with category_id := coalesce catId g.category_id }
      (g2, { db with genres := db.genres.map fun x => if x.id = g.id then g2 else x })
  | none =>
      let g2 : Genre := ⟨db.nextId, name, catId⟩
      (g2, { db with genres := db.genres ++ [g2], nextId := db.nextId + 1 })

/-- `INSERT INTO games (id, game_name) VALUES ($1, $2)`; raises on a
primary-key conflict. -/
def insertGame (i : Nat) (name : String) (db : DB) : Option (Unit × DB) :=
  if db.games.any (fun g => g.id = i) then none
  else some ((), { db with games := db.games ++ [⟨i, name⟩] })

/-- `INSERT INTO reviews (...) VALUES (...) RETURNING *`; raises on a
primary-key conflict. -/
def insertReview (r : Review) (db : DB) : Option (Review × DB) :=
  if db.reviews.any (fun x => x.id = r.id) then none
  else some (r, { db with reviews := db.reviews ++ [r] })

/-- `INSERT INTO archived_reviews (id, review_json, created_at) VALUES (...)`;
raises on a primary-key conflict. -/
def insertArchived (a : ArchivedReview) (db : DB) : Option (Unit × DB) :=
  if db.archived.any (fun x => x.id = a.id) then none
  else some ((), { db with archived := db.archived ++ [a] })

/-- `UPDATE reviews SET genre_id = $1 WHERE id = $2 RETURNING *`. -/
def updateReviewGenre (gid : Nat) (rid : Nat) (db : DB) : Option Review × DB :=
  match findReviewById db rid with
  | none => (none, db)
  | some r =>
      let r2 := { r with genre_id := some gid }
      (some r2, { db with reviews := db.reviews.map fun x => if x.id = rid then r2 else x })

/-- The materialize path's review update: `UPDATE reviews SET title = $1,
review_text = $2, rating = $3, positive_points = $4, negative_points = $5,
tags = $6, genre_id = $7, game_id = $8 WHERE id = $9` (the legacy text
`genre` column is untouched). -/
def updateReviewFull (rid : Nat) (title review_text : Option String) (rating : Option Int)
    (pos neg tags : List String) (genreId gameId : Option Nat) (db : DB) : DB :=
  { db with reviews := db.reviews.map fun r =>
      if r.id = rid then
        { r with title := title, review_text := review_text, rating := rating,
                 positive_points := pos, negative_points := neg, tags := tags,
                 genre_id := genreId, game_id := gameId }
      else r }

/-- The archive-edit path's review update with a resolved game: `UPDATE reviews
SET title = $1, review_text = $2, rating = $3, positive_points = $4,
negative_points = $5, tags = $6, game_id = $7, genre = $8 WHERE id = $9`
(updates the legacy text `genre`, leaves `genre_id` untouched). -/
def updateReviewFromJson (rid : Nat) (j : ReviewJson) (gameId : Nat) (db : DB) : DB :=
  { db with reviews := db.reviews.map fun r =>
      if r.id = rid then
        { r with title := jsStr j.title, review_text := jsStr j.review_text,
                 rating := j.rating, positive_points := j.positive_points.getD [],
                 negative_points := j.negative_points.getD [], tags := j.tags.getD [],
                 game_id := some gameId, genre := jsStr j.genre }
      else r }

/-- The archive-edit path's review update without a game change: same as
`updateReviewFromJson` but the `game_id` column is not in the SET list. -/
def updateReviewFromJsonNoGame (rid : Nat) (j : ReviewJson) (db : DB) : DB :=
  { db with reviews := db.reviews.map fun r =>
      if r.id = rid then
        { r with title := jsStr j.title, review_text := jsStr j.review_text,
                 rating := j.rating, positive_points := j.positive_points.getD [],
                 negative_points := j.negative_points.getD [], tags := j.tags.getD [],
                 genre := jsStr j.genre }
      else r }

/-- `UPDATE games SET game_name = $1 WHERE id = $2`. -/
def renameGame (gid : Nat) (newName : String) (db : DB) : DB :=
  { db with games := db.games.map fun g =>
      if g.id = gid then { g with game_name := newName } else g }

/-- `UPDATE archived_reviews SET review_json = COALESCE(review_json,
'{}'::jsonb) || $1::jsonb WHERE id = $2` with a full incoming object. -/
def mergeArchived (i : Nat) (incoming : ReviewJson) (db : DB) : DB :=
  { db with archived := db.archived.map fun a =>
      if a.id = i then { a with review_json := mergeJson a.review_json incoming } else a }

/-- The genre patch merged into an archived row by the review-genre route:
`patch = { genre: gName }` plus `categoryName` when `cName` is truthy, merged
with `review_json || patch`. -/
def mergeArchivedGenrePatch (i : Nat) (gName : String) (cName : Option String) (db : DB) : DB :=
  { db with archived := db.archived.map fun a =>
      if a.id = i then
        { a with review_json :=
            { a.review_json with
                genre := some gName,
                categoryName := override a.review_json.categoryName (jsStr cName) } }
      else a }

/-- `jsonb_set(review_json, '{game_name}', to_jsonb($1::text), true)`. -/
def setArchivedGameName (i : Nat) (v : String) (db : DB) : DB :=
  { db with archived := db.archived.map fun a =>
      if a.id = i then { a with review_json := { a.review_json with game_name := some v } }
      else a }

/-- `jsonb_set(review_json, '{genre}', to_jsonb($1::text), true)`. -/
def setArchivedGenre (i : Nat) (v : String) (db : DB) : DB :=
  { db with archived := db.archived.map fun a =>
      if a.id = i then { a with review_json := { a.review_json with genre := some v } }
      else a }

/-- `jsonb_set(review_json, '{categoryName}', to_jsonb($1::text), true)`. -/
def setArchivedCategoryName (i : Nat) (v : String) (db : DB) : DB :=
  { db with archived := db.archived.map fun a =>
      if a.id = i then { a with review_json := { a.review_json with categoryName := some v } }
      else a }

/-- Result row of `SELECT g.name, g.category_id, c.name AS category_name FROM
genres g LEFT JOIN categories c ON g.category_id = c.id WHERE g.id = $1`. -/
structure GenreRow where
  name : String
  category_id : Option Nat
  category_name : Option String
deriving DecidableEq, Repr

/-- The left-join genre row for a genre id (none when the genre is absent). -/
def genreRowQuery (db : DB) (gid : Nat) : Option GenreRow :=
  (findGenreById db gid).map fun g =>
    ⟨g.name, g.category_id,
     match g.category_id with
     | none => none
     | some cid => (findCategoryById db cid).map (fun c => c.name)⟩

/-- Result row of `SELECT g.id, g.name, g.category_id, c.name AS category_name
FROM genres g LEFT JOIN categories c ON c.id = g.category_id WHERE g.id = $1`
(the genre metadata attached to responses). -/
structure GenreMeta where
  id : Nat
  name : String
  category_id : Option Nat
  category_name : Option String
deriving DecidableEq, Repr

/-- The genre-metadata row for a genre id (none when the genre is absent). -/
def genreMetaQuery (db : DB) (gid : Nat) : Option GenreMeta :=
  (findGenreById db gid).map fun g =>
    ⟨g.id, g.name, g.category_id,
     match g.category_id with
     | none => none
     | some cid => (findCategoryById db cid).map (fun c => c.name)⟩

/-- `gm.rows[0]?.genre_name || null` and `gm.rows[0]?.category_name || null`
from the metadata write-back query of the materialize path. -/
def genreNamesFor (db : DB) (gid : Nat) : Option String × Option String :=
  match findGenreById db gid with
  | none => (none, none)
  | some g =>
      (jsStr (some g.name),
       jsStr (match g.category_id with
              | none => none
              | some cid => (findCategoryById db cid).map (fun c => c.name)))

/-- Connection events recorded while a handler runs, used to audit that every
BEGIN is paired with a COMMIT or ROLLBACK. -/
inductive Ev where
  | tbegin
  | twrite
  | tcommit
  | trollback
deriving DecidableEq, Repr

/-- The state a handler's database connection moves through: the committed
database, the working database seen inside the open transaction, the event
trace, the number of write statements issued so far, the index of the write
statement made to raise a database error (fault injection), whether the
transaction is in Postgres's aborted state after a failed statement, and
whether some write statement of this run failed. -/
structure TxState where
  committed : DB
  working : DB
  events : List Ev
  writeCount : Nat
  failAt : Option Nat
  aborted : Bool
  failed : Bool
deriving DecidableEq, Repr

/-- A step of a handler: it may produce a value, or raise (propagating to the
enclosing JavaScript catch), and it transforms the connection state. -/
def Tx (α : Type) : Type := TxState → Option α × TxState

/-- Monadic return for `Tx`. -/
def Tx.pure {α : Type} (a : α) : Tx α := fun s => (some a, s)

/-- Monadic sequencing for `Tx`: a raise short-circuits to the enclosing
catch, as a thrown JavaScript exception does. -/
def Tx.bind {α β : Type} (x : Tx α) (f : α → Tx β) : Tx β := fun s =>
  match x s with
  | (some a, s2) => f a s2
  | (none, s2) => (none, s2)

instance : Monad Tx where
  pure := Tx.pure
  bind := Tx.bind

@[simp] theorem Tx.bind_apply {α β : Type} (x : Tx α) (f : α → Tx β) (s : TxState) :
    (x >>= f) s =
      match x s with
      | (some a, s2) => f a s2
      | (none, s2) => (none, s2) := rfl

@[simp] theorem Tx.pure_apply {α : Type} (a : α) (s : TxState) :
    (Pure.pure a : Tx α) s = (some a, s) := rfl

/-- `BEGIN`. -/
def txBegin : Tx Unit := fun s =>
  (some (), { s with working := s.committed, aborted := false,
                     events := s.events ++ [Ev.tbegin] })

/-- `COMMIT`: publishes the working database; on an aborted transaction
Postgres turns COMMIT into a rollback (no error is raised). -/
def txCommit : Tx Unit := fun s =>
  if s.aborted then
    (some (), { s with working := s.committed, aborted := false,
                       events := s.events ++ [Ev.trollback] })
  else
    (some (), { s with committed := s.working, events := s.events ++ [Ev.tcommit] })

/-- `ROLLBACK`: discards the working state and clears the aborted flag. -/
def txRollback : Tx Unit := fun s =>
  (some (), { s with working := s.committed, aborted := false,
                     events := s.events ++ [Ev.trollback] })

/-- A read-only SQL statement; it fails when the transaction is aborted
("current transaction is aborted, commands ignored"). -/
def txRead {α : Type} (f : DB → α) : Tx α := fun s =>
  if s.aborted then (none, s) else (some (f s.working), s)

/-- A write statement that can itself raise (e.g. a primary-key violation),
and that raises when the fault-injection index matches; a failed statement
puts the transaction into the aborted state. -/
def txWriteErr {α : Type} (f : DB → Option (α × DB)) : Tx α := fun s =>
  if s.aborted then (none, s)
  else if s.failAt = some s.writeCount then
    (none, { s with writeCount := s.writeCount + 1, aborted := true, failed := true })
  else
    match f s.working with
    | some (a, db2) =>
        (some a, { s with working := db2, writeCount := s.writeCount + 1,
                          events := s.events ++ [Ev.twrite] })
    | none =>
        (none, { s with writeCount := s.writeCount + 1, aborted := true, failed := true })

/-- A write statement returning a value, never failing on its own. -/
def txWriteRet {α : Type} (f : DB → α × DB) : Tx α :=
  txWriteErr (fun db => some (f db))

/-- A write statement with no returned value. -/
def txWrite (f : DB → DB) : Tx Unit :=
  txWriteErr (fun db => some ((), f db))

/-- `uuidv4()`: draw a fresh identifier (not a database statement; never
fails). -/
def txUuid : Tx Nat := fun s =>
  (some s.working.nextId,
   { s with working := { s.working with nextId := s.working.nextId + 1 } })

/-- A JavaScript exception that is not a database statement error (e.g. a
TypeError from destructuring a missing row): propagates to the enclosing
catch without touching the transaction. -/
def txThrow {α : Type} : Tx α := fun s => (none, s)

/-- `try { x } catch { h }`. -/
def txCatch {α : Type} (x : Tx α) (h : Tx α) : Tx α := fun s =>
  match x s with
  | (some a, s2) => (some a, s2)
  | (none, s2) => h s2

/-- The connection state a handler starts from. -/
def initState (db : DB) (failAt : Option Nat) : TxState :=
  ⟨db, db, [], 0, failAt, false, false⟩

/-- Run a handler body on a fresh connection state. -/
def runTx {α : Type} (x : Tx α) (db : DB) (failAt : Option Nat) : Option α × TxState :=
  x (initState db failAt)

/-- Every BEGIN in the trace is followed by a COMMIT or a ROLLBACK. -/
def txClosed : List Ev → Bool
  | [] => true
  | Ev.tbegin :: rest =>
      (rest.contains Ev.tcommit || rest.contains Ev.trollback) && txClosed rest
  | _ :: rest => txClosed rest

/-- Optional genre/category identifiers and names taken from a request body. -/
structure GBody where
  genreId : Option Nat
  categoryId : Option Nat
  genreName : Option String
  categoryName : Option String
deriving DecidableEq, Repr

/-- The category-resolution step shared by the genre, review-genre and
materialize routes: `finalCategoryId = categoryId || null; if
(!finalCategoryId && categoryName) { upsert the category }`. -/
def resolveCategory (categoryId : Option Nat) (categoryName : Option String) :
    Tx (Option Nat) := do
  match jsId categoryId with
  | some i => pure (some i)
  | none =>
      match jsStr categoryName with
      | some cn => do
          let r ← txWriteRet (fun db => upsertCategory db cn)
          pure (some r.1)
      | none => pure none

/-- The genre-resolution step shared by the review-genre and materialize
routes: `finalGenreId = genreId || null; if (!finalGenreId && genreName)
{ upsert the genre with finalCategoryId }`. -/
def resolveGenre (genreId : Option Nat) (genreName : Option String)
    (finalCategoryId : Option Nat) : Tx (Option Nat) := do
  match jsId genreId with
  | some i => pure (some i)
  | none =>
      match jsStr genreName with
      | some gn => do
          let g ← txWriteRet (fun db => upsertGenre db gn finalCategoryId)
          pure (some g.id)
      | none => pure none

/-- The metadata write-back block of the materialize route (identical in its
created and updated branches): persist the trimmed game name, and the
resolved genre and category display names, back into the archive JSON. -/
def persistMetadata (archivedId : Nat) (gameName : String) (finalGenreId : Option Nat) :
    Tx Unit := do
  if gameName = "" then pure () else txWrite (setArchivedGameName archivedId gameName)
  match finalGenreId with
  | none => pure ()
  | some gid => do
      let nm ← txRead (fun db => genreNamesFor db gid)
      (match nm.1 with
       | some gn => txWrite (setArchivedGenre archivedId gn)
       | none => pure ())
      match nm.2 with
      | some cn => txWrite (setArchivedCategoryName archivedId cn)
      | none => pure ()

/-- The genre-metadata query attached to materialize responses (`genreMeta =
g.rows[0]` when a genre was resolved). -/
def lookupGenreMeta (finalGenreId : Option Nat) : Tx (Option GenreMeta) :=
  match finalGenreId with
  | some gid => txRead (fun db => genreMetaQuery db gid)
  | none => Tx.pure none

/-- Response of `POST /api/categories`. -/
inductive CatResult where
  | badRequest
  | created (id : Nat) (name : String)
deriving DecidableEq, Repr

/-- `POST /api/categories` (server.js 192-209): validate the name, then a
single auto-committed upsert statement (no explicit transaction). -/
def createCategory (db : DB) (name : Option String) : CatResult × DB :=
  match name with
  | none => (CatResult.badRequest, db)
  | some n =>
      if trimStr n = "" then (CatResult.badRequest, db)
      else
        let r := upsertCategory db n
        (CatResult.created r.1.1 r.1.2, r.2)

/-- Response of `POST /api/genres`. -/
inductive GenreCreateResult where
  | badRequest
  | created (genre : Genre) (categoryName : Option String)
  | failure
deriving DecidableEq, Repr

/-- The transactional body of `POST /api/genres` (server.js 219-253). -/
def createGenreTx (name : String) (body : GBody) : Tx GenreCreateResult :=
  txCatch
    (do
      txBegin
      let finalCategoryId ← resolveCategory body.categoryId body.categoryName
      let created ← txWriteRet (fun db => upsertGenre db name finalCategoryId)
      txCommit
      match created.category_id with
      | some cid => do
          let c ← txRead (fun db => findCategoryById db cid)
          match c with
          | none => txThrow
          | some crow => pure (GenreCreateResult.created created (some crow.name))
      | none => pure (GenreCreateResult.created created none))
    (do
      txRollback
      pure GenreCreateResult.failure)

/-- `POST /api/genres` (server.js 212-258): the name is validated before the
transaction starts. -/
def createGenre (db : DB) (name : Option String) (body : GBody) (failAt : Option Nat) :
    Option GenreCreateResult × TxState :=
  match name with
  | none => (some GenreCreateResult.badRequest, initState db failAt)
  | some n =>
      if trimStr n = "" then (some GenreCreateResult.badRequest, initState db failAt)
      else runTx (createGenreTx n body) db failAt

/-- Response of `PATCH /api/reviews/:id/genre`. -/
inductive PatchResult where
  | badRequest
  | notFound
  | okArchived (reviewId : Nat) (meta : GenreMeta)
  | okReview (review : Review) (meta : Option GenreMeta)
  | failure
deriving DecidableEq, Repr

/-- The transactional handler of `PATCH /api/reviews/:id/genre` (server.js
261-357).  Note the source returns 400 from inside the open transaction
without issuing COMMIT or ROLLBACK; the translation reproduces that. -/
def patchReviewGenreTx (rid : Nat) (body : GBody) : Tx PatchResult :=
  txCatch
    (do
      txBegin
      let finalCategoryId ← resolveCategory body.categoryId body.categoryName
      let finalGenreId ← resolveGenre body.genreId body.genreName finalCategoryId
      match finalGenreId with
      | none =>
          pure PatchResult.badRequest
      | some gid => do
          let upd ← txWriteRet (updateReviewGenre gid rid)
          match upd with
          | none => do
              let arch ← txRead (fun db => findArchivedById db rid)
              match arch with
              | some _ => do
                  let gRes ← txRead (fun db => genreRowQuery db gid)
                  match gRes with
                  | none => txThrow
                  | some grow => do
                      txWrite (mergeArchivedGenrePatch rid grow.name grow.category_name)
                      txCommit
                      pure (PatchResult.okArchived rid
                        ⟨gid, grow.name, grow.category_id, grow.category_name⟩)
              | none => do
                  txRollback
                  pure PatchResult.notFound
          | some r => do
              txCommit
              let g ← txRead (fun db => genreMetaQuery db gid)
              pure (PatchResult.okReview r g))
    (do
      txRollback
      pure PatchResult.failure)

/-- `PATCH /api/reviews/:id/genre` run on a fresh connection. -/
def patchReviewGenre (db : DB) (rid : Nat) (body : GBody) (failAt : Option Nat) :
    Option PatchResult × TxState :=
  runTx (patchReviewGenreTx rid body) db failAt

/-- The body of `POST /api/reviews`. -/
structure NewReviewInput where
  title : Option String
  game_name : Option String
  review_text : Option String
  rating : Option Int
  genre : Option String
  positive_points : Option (List String)
  negative_points : Option (List String)
  tags : Option (List String)
deriving DecidableEq, Repr

/-- The `originalReviewJson` snapshot built by `POST /api/reviews`. -/
def originalJson (input : NewReviewInput) : ReviewJson :=
  ⟨input.title, input.game_name, input.review_text, input.rating,
   jsStr input.genre, none,
   some (input.positive_points.getD []), some (input.negative_points.getD []),
   some (input.tags.getD [])⟩

/-- Response of `POST /api/reviews`. -/
inductive CreateReviewResult where
  | badRequest
  | created (review : Review) (game_name : String)
  | failure
deriving DecidableEq, Repr

/-- The transactional body of `POST /api/reviews` (server.js 389-455). -/
def createReviewTx (input : NewReviewInput) : Tx CreateReviewResult :=
  txCatch
    (do
      txBegin
      let gameResult ← txRead (fun db => findGameByName db (input.game_name.getD ""))
      let gameId ← (match gameResult with
        | some g => Tx.pure g.id
        | none => do
            let gid ← txUuid
            let _ ← txWriteErr (insertGame gid (input.game_name.getD ""))
            pure gid)
      let reviewId ← txUuid
      let inserted ← txWriteErr (insertReview
        ⟨reviewId, some gameId, input.title, input.review_text, input.rating,
         input.positive_points.getD [], input.negative_points.getD [],
         input.tags.getD [], none, jsStr input.genre⟩)
      let _ ← txWriteErr (insertArchived ⟨reviewId, originalJson input⟩)
      txCommit
      pure (CreateReviewResult.created inserted (input.game_name.getD "")))
    (do
      txRollback
      pure CreateReviewResult.failure)

/-- `POST /api/reviews` (server.js 360-460): required fields are validated
before the transaction starts. -/
def createReview (db : DB) (input : NewReviewInput) (failAt : Option Nat) :
    Option CreateReviewResult × TxState :=
  if jsStr input.title = none ∨ jsStr input.game_name = none ∨
     jsStr input.review_text = none ∨ input.rating = none then
    (some CreateReviewResult.badRequest, initState db failAt)
  else runTx (createReviewTx input) db failAt

/-- Response of `PUT /api/archived-reviews/:id`. -/
inductive PutResult where
  | notFound
  | success
  | failure
deriving DecidableEq, Repr

/-- The transactional handler of `PUT /api/archived-reviews/:id` (server.js
674-832): merge the incoming JSON into the archive row, then, when a
normalized review with the same id exists, propagate the merged fields to it,
resolving the game by the three-way exists/rename/create policy. -/
def putArchivedTx (aid : Nat) (incoming : ReviewJson) : Tx PutResult :=
  txCatch
    (do
      txBegin
      txWrite (mergeArchived aid incoming)
      let merged ← txRead (fun db => findArchivedById db aid)
      match merged with
      | none => do
          txRollback
          pure PutResult.notFound
      | some arow => do
          let mergedJson := arow.review_json
          let reviewRow ← txRead (fun db => findReviewById db aid)
          (match reviewRow with
           | none => pure ()
           | some rrow => do
               let gameId ← (match jsStr mergedJson.game_name with
                 | none => Tx.pure (none : Option Nat)
                 | some gname => do
                     let eg ← txRead (fun db => findGameByName db gname)
                     match eg with
                     | some g => pure (some g.id)
                     | none =>
                         match rrow.game_id with
                         | some oldGameId => do
                             let refCount ← txRead (fun db =>
                               (db.reviews.filter (fun r => r.game_id = some oldGameId)).length)
                             if refCount = 1 then do
                               txWrite (renameGame oldGameId gname)
                               pure (some oldGameId)
                             else do
                               let nid ← txUuid
                               let _ ← txWriteErr (insertGame nid gname)
                               pure (some nid)
                         | none => do
                             let nid ← txUuid
                             let _ ← txWriteErr (insertGame nid gname)
                             pure (some nid))
               match gameId with
               | some gid => txWrite (updateReviewFromJson aid mergedJson gid)
               | none => txWrite (updateReviewFromJsonNoGame aid mergedJson))
          txCommit
          pure PutResult.success)
    (do
      txRollback
      pure PutResult.failure)

/-- `PUT /api/archived-reviews/:id` run on a fresh connection. -/
def putArchived (db : DB) (aid : Nat) (incoming : ReviewJson) (failAt : Option Nat) :
    Option PutResult × TxState :=
  runTx (putArchivedTx aid incoming) db failAt

/-- Response of `POST /api/archived-reviews/:id/materialize`. -/
inductive MatResult where
  | notFound
  | ok (review : Option Review) (meta : Option GenreMeta) (materialized : String)
  | failure
deriving DecidableEq, Repr

/-- The transactional handler of `POST /api/archived-reviews/:id/materialize`
(server.js 835-1043).  The metadata write-back block sits in an inner
try/catch whose errors are logged and swallowed; a statement failure there
still leaves the Postgres transaction aborted. -/
def materializeTx (archivedId : Nat) (body : GBody) : Tx MatResult :=
  txCatch
    (do
      txBegin
      let ar ← txRead (fun db => findArchivedById db archivedId)
      match ar with
      | none => do
          txRollback
          pure MatResult.notFound
      | some arow => do
          let reviewJson := arow.review_json
          let gameName := trimStr (reviewJson.game_name.getD "")
          let gameId ← (if gameName = "" then Tx.pure (none : Option Nat) else do
            let g ← txRead (fun db => findGameByName db gameName)
            match g with
            | some grow => pure (some grow.id)
            | none => do
                let newId ← txUuid
                let _ ← txWriteErr (insertGame newId gameName)
                pure (some newId))
          let finalCategoryId ← resolveCategory body.categoryId body.categoryName
          let finalGenreId ← resolveGenre body.genreId body.genreName finalCategoryId
          let title := jsStr reviewJson.title
          let review_text := jsStr reviewJson.review_text
          let rating := reviewJson.rating
          let positive_points := reviewJson.positive_points.getD []
          let negative_points := reviewJson.negative_points.getD []
          let tags := reviewJson.tags.getD []
          let existing ← (match gameId with
            | some gid => txRead (fun db => findReviewByGameId db gid)
            | none => Tx.pure none)
          match existing with
          | some erow => do
              txWrite (updateReviewFull erow.id title review_text rating positive_points
                negative_points tags finalGenreId gameId)
              let updated ← txRead (fun db => findReviewById db erow.id)
              txCatch (persistMetadata archivedId gameName finalGenreId) (pure ())
              let genreMeta ← lookupGenreMeta finalGenreId
              txCommit
              pure (MatResult.ok updated genreMeta "updated")
          | none => do
              let inserted ← txWriteErr (insertReview
                ⟨archivedId, gameId, title, review_text, rating, positive_points,
                 negative_points, tags, finalGenreId, none⟩)
              txCatch (persistMetadata archivedId gameName finalGenreId) (pure ())
              let genreMeta ← lookupGenreMeta finalGenreId
              txCommit
              pure (MatResult.ok (some inserted) genreMeta "created"))
    (do
      txRollback
      pure MatResult.failure)

/-- `POST /api/archived-reviews/:id/materialize` run on a fresh connection. -/
def materialize (db : DB) (aid : Nat) (body : GBody) (failAt : Option Nat) :
    Option MatResult × TxState :=
  runTx (materializeTx aid body) db failAt

/-- Well-formedness of a database state: ids are unique in every table,
category and genre names are unique case-insensitively (the unique indexes
behind `ON CONFLICT (lower(name))`), and every id stored anywhere is below
the fresh-id supply. -/
def DBwf (db : DB) : Prop :=
  db.categories.Pairwise (fun a b => a.id ≠ b.id) ∧
  db.categories.Pairwise (fun a b => lowerStr a.name ≠ lowerStr b.name) ∧
  (∀ c ∈ db.categories, c.id < db.nextId) ∧
  db.genres.Pairwise (fun a b => a.id ≠ b.id) ∧
  db.genres.Pairwise (fun a b => lowerStr a.name ≠ lowerStr b.name) ∧
  (∀ g ∈ db.genres, g.id < db.nextId) ∧
  db.games.Pairwise (fun a b => a.id ≠ b.id) ∧
  (∀ g ∈ db.games, g.id < db.nextId) ∧
  db.reviews.Pairwise (fun a b => a.id ≠ b.id) ∧
  (∀ r ∈ db.reviews, r.id < db.nextId) ∧
  (∀ gid ∈ db.reviews.filterMap (fun r => r.game_id), gid < db.nextId) ∧
  db.archived.Pairwise (fun a b => a.id ≠ b.id) ∧
  (∀ a ∈ db.archived, a.id < db.nextId)

/-- A transaction fragment that never publishes: the committed database is
left untouched; on an aborted connection the connection stays aborted and the
failure flag is unchanged; and starting from a healthy connection, a run that
raises the failure flag leaves the connection aborted, so a later COMMIT
degrades to ROLLBACK. -/
def Atomic {α : Type} (x : Tx α) : Prop := ∀ s,
  (x s).2.committed = s.committed ∧
  (s.aborted = true → (x s).2.aborted = true ∧ (x s).2.failed = s.failed) ∧
  (s.aborted = false → s.failed = false →
    ((x s).2.failed = true → (x s).2.aborted = true) ∧
    ((x s).2.aborted = false → (x s).2.failed = false))

/-- A transaction fragment that neither publishes nor fails: the read-only
tail code a handler runs after COMMIT. -/
def Quiet {α : Type} (x : Tx α) : Prop := ∀ s,
  (x s).2.committed = s.committed ∧ (x s).2.failed = s.failed

/-- The whole body of a handler between BEGIN and its catch: on an aborted
connection it changes neither the committed database nor the failure flag,
and on a healthy connection any run that ends with the failure flag set has
left the committed database untouched. -/
def BodyOk {α : Type} (x : Tx α) : Prop := ∀ s,
  (s.aborted = true → (x s).2.committed = s.committed ∧ (x s).2.failed = s.failed) ∧
  (s.aborted = false → s.failed = false →
    (x s).2.failed = true → (x s).2.committed = s.committed)

/-- If `c` is a member matching `p` and at most one element of the list can
match `p`, then `c` is the first match. -/
theorem find?_eq_of_mem_unique {α : Type} (p : α → Bool) :
    ∀ (l : List α) (c : α), c ∈ l → p c = true →
      l.Pairwise (fun a b => p a = true → p b = true → False) →
      l.find? p = some c := by
  intro l
  induction l with
  | nil => intro c h _ _; cases h
  | cons a t ih =>
    intro c hmem hp hpw
    rw [List.pairwise_cons] at hpw
    by_cases ha : p a = true
    · rw [List.find?_cons_of_pos _ ha]
      cases List.mem_cons.mp hmem with
      | inl h => rw [h]
      | inr h => exact (hpw.1 c h ha hp).elim
    · rw [List.find?_cons_of_neg _ ha]
      cases List.mem_cons.mp hmem with
      | inl h => rw [h] at hp; exact absurd hp ha
      | inr h => exact ih c h hp hpw.2

/-- A keyed row update (the shape of every SQL UPDATE here) turns the first
`q`-match `c` into `f c`; when keys are unique and `f c` still matches, the
updated row is the first `q`-match of the updated table. -/
theorem find?_replace_fn {α : Type} (q : α → Bool) (key : α → Nat) (f : α → α) :
    ∀ (l : List α) (c : α), l.find? q = some c →
      l.Pairwise (fun a b => key a ≠ key b) →
      q (f c) = true →
      (l.map fun x => if key x = key c then f x else x).find? q = some (f c) := by
  intro l
  induction l with
  | nil => intro c h; simp at h
  | cons a t ih =>
    intro c hfind hpw hq
    rw [List.pairwise_cons] at hpw
    by_cases ha : q a = true
    · rw [List.find?_cons_of_pos _ ha] at hfind
      injection hfind with h
      subst h
      simp only [List.map_cons, if_pos rfl]
      exact List.find?_cons_of_pos _ hq
    · rw [List.find?_cons_of_neg _ ha] at hfind
      have hc : c ∈ t := List.mem_of_find?_eq_some hfind
      have hne : key a ≠ key c := hpw.1 c hc
      simp only [List.map_cons, if_neg hne]
      rw [List.find?_cons_of_neg _ ha]
      exact ih c hfind hpw.2 hq

/-- Appending a match to a match-free list makes it the first match. -/
theorem find?_append_right {α : Type} (p : α → Bool) (c : α) :
    ∀ (l : List α), l.find? p = none → p c = true → (l ++ [c]).find? p = some c := by
  intro l
  induction l with
  | nil =>
    intro _ hp
    simp only [List.nil_append]
    exact List.find?_cons_of_pos _ hp
  | cons a t ih =>
    intro h hp
    have ha : ¬ p a = true := by
      intro hpa
      rw [List.find?_cons_of_pos _ hpa] at h
      exact Option.noConfusion h
    rw [List.find?_cons_of_neg _ ha] at h
    rw [List.cons_append, List.find?_cons_of_neg _ ha]
    exact ih h hp

/-- A list whose `p`-filter is the singleton `[c]` has `c` as first match. -/
theorem filter_singleton_find? {α : Type} (p : α → Bool) :
    ∀ (l : List α) (c : α), l.filter p = [c] → l.find? p = some c := by
  intro l
  induction l with
  | nil => intro c h; simp at h
  | cons a t ih =>
    intro c h
    by_cases ha : p a = true
    · rw [List.filter_cons_of_pos ha] at h
      have h1 : a = c := (List.cons_eq_cons.mp h).1
      rw [List.find?_cons_of_pos _ ha, h1]
    · rw [List.filter_cons_of_neg ha] at h
      rw [List.find?_cons_of_neg _ ha]
      exact ih c h

/-- A keyed row update on a key that no row has is a no-op. -/
theorem map_id_of_not_key {α : Type} (key : α → Nat) (k : Nat) (f : α → α) :
    ∀ (l : List α), (∀ x ∈ l, key x ≠ k) →
      (l.map fun x => if key x = k then f x else x) = l := by
  intro l
  induction l with
  | nil => intro _; rfl
  | cons a t ih =>
    intro h
    simp only [List.map_cons]
    rw [if_neg (h a (List.mem_cons_self a t)), ih (fun x hx => h x (List.mem_cons_of_mem a hx))]

/-- A keyed row update of the unique `p`-match keeps the `p`-filter a
singleton holding the updated row. -/
theorem filter_map_replace_fn {α : Type} (p : α → Bool) (key : α → Nat) (f : α → α) :
    ∀ (l : List α) (c : α), l.filter p = [c] →
      l.Pairwise (fun a b => key a ≠ key b) →
      p (f c) = true →
      (l.map fun x => if key x = key c then f x else x).filter p = [f c] := by
  intro l
  induction l with
  | nil => intro c h; simp at h
  | cons a t ih =>
    intro c hfil hpw hp
    rw [List.pairwise_cons] at hpw
    by_cases ha : p a = true
    · rw [List.filter_cons_of_pos ha] at hfil
      obtain ⟨h1, h2⟩ := List.cons_eq_cons.mp hfil
      subst h1
      have hmap : (t.map fun x => if key x = key a then f x else x) = t := by
        apply map_id_of_not_key
        intro x hx hk
        exact hpw.1 x hx hk.symm
      rw [List.map_cons, if_pos rfl, hmap, List.filter_cons_of_pos hp, h2]
    · rw [List.filter_cons_of_neg ha] at hfil
      have hc : c ∈ t := by
        have hcf : c ∈ t.filter p := by rw [hfil]; exact List.mem_singleton.mpr rfl
        exact List.mem_of_mem_filter hcf
      have hne : key a ≠ key c := hpw.1 c hc
      simp only [List.map_cons, if_neg hne]
      rw [List.filter_cons_of_neg ha]
      exact ih c hfil hpw.2 hp

/-- A keyed row update preserves pairwise key distinctness when the update
preserves keys. -/
theorem pairwise_key_map_update {α : Type} (key : α → Nat) (k : Nat) (f : α → α)
    (hkey : ∀ x, key (f x) = key x) (l : List α)
    (h : l.Pairwise (fun a b => key a ≠ key b)) :
    (l.map fun x => if key x = k then f x else x).Pairwise (fun a b => key a ≠ key b) := by
  apply List.Pairwise.map _ _ h
  intro a b hab
  have hx : ∀ x, key (if key x = k then f x else x) = key x := by
    intro x
    by_cases h1 : key x = k
    · rw [if_pos h1, hkey]
    · rw [if_neg h1]
  rw [hx a, hx b]
  exact hab

/-- The found branch of the category upsert, spelled out. -/
theorem upsertCategory_found (db : DB) (n : String) (c : Category)
    (h : findCategoryByLower db n = some c) :
    upsertCategory db n = ((c.id, n),
      { db with categories :=
          db.categories.map (fun x => if x.id = c.id then { x with name := n } else x) }) := by
  unfold upsertCategory
  rw [h]

/-- The fresh branch of the category upsert, spelled out. -/
theorem upsertCategory_fresh (db : DB) (n : String)
    (h : findCategoryByLower db n = none) :
    upsertCategory db n = ((db.nextId, n),
      { db with categories := db.categories ++ [⟨db.nextId, n⟩],
                nextId := db.nextId + 1 }) := by
  unfold upsertCategory
  rw [h]

/-- The found branch of the genre upsert, spelled out. -/
theorem upsertGenre_found (db : DB) (n : String) (catId : Option Nat) (g : Genre)
    (h : findGenreByLower db n = some g) :
    upsertGenre db n catId = ({ g with category_id := coalesce catId g.category_id },
      { db with genres :=
          db.genres.map (fun x =>
            if x.id = g.id then { g with category_id := coalesce catId g.category_id }
            else x) }) := by
  unfold upsertGenre
  rw [h]

/-- The fresh branch of the genre upsert, spelled out. -/
theorem upsertGenre_fresh (db : DB) (n : String) (catId : Option Nat)
    (h : findGenreByLower db n = none) :
    upsertGenre db n catId = (⟨db.nextId, n, catId⟩,
      { db with genres := db.genres ++ [⟨db.nextId, n, catId⟩],
                nextId := db.nextId + 1 }) := by
  unfold upsertGenre
  rw [h]

/-- C4: upserting a category by name is idempotent on identity — creating a
category with the same name twice, in any casing, yields the same category id
both times, and the stored name equals the most recently supplied casing. -/
theorem c4_category_upsert_idempotent (db : DB) (n1 n2 : String)
    (hwf : DBwf db) (h1 : trimStr n1 ≠ "") (h2 : trimStr n2 ≠ "")
    (hcase : lowerStr n1 = lowerStr n2) :
    ∃ i,
      (createCategory db (some n1)).1 = CatResult.created i n1 ∧
      (createCategory (createCategory db (some n1)).2 (some n2)).1 = CatResult.created i n2 ∧
      findCategoryById (createCategory (createCategory db (some n1)).2 (some n2)).2 i =
        some ⟨i, n2⟩ := by
  obtain ⟨hcid, hcname, hclt, _⟩ := hwf
  simp only [createCategory, if_neg h1, if_neg h2]
  cases hfind : findCategoryByLower db n1 with
  | some c =>
      have hcmem : c ∈ db.categories := List.mem_of_find?_eq_some hfind
      have hfind2 : findCategoryByLower db n2 = some c := by
        unfold findCategoryByLower at hfind ⊢
        rw [← hcase]
        exact hfind
      rw [upsertCategory_found db n1 c hfind]
      have hrep : findCategoryByLower
          { db with categories :=
              db.categories.map (fun x => if x.id = c.id then { x with name := n1 } else x) }
          n2 = some { c with name := n1 } :=
        find?_replace_fn (fun x : Category => decide (lowerStr x.name = lowerStr n2))
          Category.id (fun x => { x with name := n1 })
          db.categories c hfind2 hcid (by simp [hcase])
      rw [upsertCategory_found
        { db with categories :=
            db.categories.map (fun x => if x.id = c.id then { x with name := n1 } else x) }
        n2 { c with name := n1 } hrep]
      refine ⟨c.id, rfl, rfl, ?_⟩
      have hmem1 : ({ c with name := n1 } : Category) ∈ db.categories.map
          (fun x => if x.id = c.id then { x with name := n1 } else x) := by
        refine List.mem_map.mpr ⟨c, hcmem, ?_⟩
        rw [if_pos rfl]
      have hpw1 : (db.categories.map
          (fun x => if x.id = c.id then { x with name := n1 } else x)).Pairwise
          (fun a b => a.id ≠ b.id) :=
        pairwise_key_map_update Category.id c.id (fun x => { x with name := n1 })
          (fun _ => rfl) db.categories hcid
      have hidfind : (db.categories.map
          (fun x => if x.id = c.id then { x with name := n1 } else x)).find?
          (fun x => decide (x.id = c.id)) = some { c with name := n1 } := by
        apply find?_eq_of_mem_unique _ _ _ hmem1 (by simp)
        refine hpw1.imp ?_
        intro a b hab ha hb
        exact hab ((of_decide_eq_true ha).trans (of_decide_eq_true hb).symm)
      exact find?_replace_fn (fun x : Category => decide (x.id = c.id)) Category.id
        (fun x => { x with name := n2 }) _ _ hidfind hpw1 (by simp)
  | none =>
      have hfind2 : findCategoryByLower db n2 = none := by
        unfold findCategoryByLower at hfind ⊢
        rw [← hcase]
        exact hfind
      rw [upsertCategory_fresh db n1 hfind]
      have hrep : findCategoryByLower
          { db with categories := db.categories ++ [⟨db.nextId, n1⟩],
                    nextId := db.nextId + 1 } n2 = some ⟨db.nextId, n1⟩ :=
        find?_append_right (fun x : Category => decide (lowerStr x.name = lowerStr n2))
          (⟨db.nextId, n1⟩ : Category) db.categories hfind2 (by simp [hcase])
      rw [upsertCategory_found
        { db with categories := db.categories ++ [⟨db.nextId, n1⟩],
                  nextId := db.nextId + 1 } n2 ⟨db.nextId, n1⟩ hrep]
      refine ⟨db.nextId, rfl, rfl, ?_⟩
      have hidnone : db.categories.find? (fun x => decide (x.id = db.nextId)) = none := by
        rw [List.find?_eq_none]
        intro x hx
        simp only [decide_eq_true_eq]
        exact Nat.ne_of_lt (hclt x hx)
      have hidfind : (db.categories ++ [(⟨db.nextId, n1⟩ : Category)]).find?
          (fun x => decide (x.id = db.nextId)) = some ⟨db.nextId, n1⟩ :=
        find?_append_right (fun x : Category => decide (x.id = db.nextId))
          (⟨db.nextId, n1⟩ : Category) db.categories hidnone (by simp)
      have hpw1 : (db.categories ++ [(⟨db.nextId, n1⟩ : Category)]).Pairwise
          (fun a b => a.id ≠ b.id) := by
        rw [List.pairwise_append]
        refine ⟨hcid, List.pairwise_singleton _ _, ?_⟩
        intro a ha b hb
        rw [List.mem_singleton.mp hb]
        exact Nat.ne_of_lt (hclt a ha)
      exact find?_replace_fn (fun x : Category => decide (x.id = db.nextId)) Category.id
        (fun x => { x with name := n2 }) _ _ hidfind hpw1 (by simp)

/-- C3: a genre whose category link is set keeps that link unchanged under a
later upsert by the same name (any casing) that supplies no category; the
link is never cleared by such an upsert. -/
theorem c3_genre_category_coalesce (db : DB) (n : String) (g : Genre) (c : Nat) (body : GBody)
    (hwf : DBwf db) (hn : trimStr n ≠ "")
    (hmem : g ∈ db.genres) (hgcat : g.category_id = some c)
    (hlow : lowerStr g.name = lowerStr n)
    (hcatid : jsId body.categoryId = none) (hcatnm : jsStr body.categoryName = none) :
    findGenreById (createGenre db (some n) body none).2.committed g.id = some g := by
  obtain ⟨-, -, -, hgid, hgname, -⟩ := hwf
  have hfindg : findGenreByLower db n = some g := by
    apply find?_eq_of_mem_unique _ _ _ hmem (by simp [hlow])
    refine hgname.imp ?_
    intro a b hab ha hb
    exact hab ((of_decide_eq_true ha).trans (of_decide_eq_true hb).symm)
  have hg2 : ({ g with category_id := coalesce none g.category_id } : Genre) = g := rfl
  have e := upsertGenre_found db n none g hfindg
  rw [hg2] at e
  have hidfind : db.genres.find? (fun x => decide (x.id = g.id)) = some g := by
    apply find?_eq_of_mem_unique _ _ _ hmem (by simp)
    refine hgid.imp ?_
    intro a b hab ha hb
    exact hab ((of_decide_eq_true ha).trans (of_decide_eq_true hb).symm)
  have hrep : (db.genres.map (fun x => if x.id = g.id then g else x)).find?
      (fun x => decide (x.id = g.id)) = some g :=
    find?_replace_fn (fun x : Genre => decide (x.id = g.id)) Genre.id
      (fun _ => g) db.genres g hidfind hgid (by simp)
  cases hfc : findCategoryById
      { db with genres := db.genres.map (fun x => if x.id = g.id then g else x) } c <;>
    simp only [createGenre, if_neg hn, runTx, initState, createGenreTx, txCatch, txBegin,
      Tx.bind_apply, Tx.pure_apply, resolveCategory, hcatid, hcatnm, e, txWriteRet, txWriteErr,
      txCommit, txRead, txRollback, txThrow, hgcat, reduceIte, reduceCtorEq, hfc,
      findGenreById] <;>
    exact hrep

/-- C10: for an id that exists only in archived_reviews, the review-genre
update with a resolvable genre succeeds without materializing — it merges the
resolved genre name (and, when the genre is linked to a category, the
category name) into the archive JSON, creates no row in the reviews table,
and returns the resolved genre metadata. -/
theorem c10_archived_only_genre_update (db : DB) (rid gid : Nat) (body : GBody)
    (arow : ArchivedReview) (grow : GenreRow)
    (hwf : DBwf db)
    (hrev : findReviewById db rid = none)
    (harch : findArchivedById db rid = some arow)
    (hgid : jsId body.genreId = some gid)
    (hcatid : jsId body.categoryId = none) (hcatnm : jsStr body.categoryName = none)
    (hrow : genreRowQuery db gid = some grow) :
    (patchReviewGenre db rid body none).1 =
      some (PatchResult.okArchived rid ⟨gid, grow.name, grow.category_id, grow.category_name⟩) ∧
    (patchReviewGenre db rid body none).2.committed.reviews = db.reviews ∧
    findArchivedById (patchReviewGenre db rid body none).2.committed rid =
      some { arow with review_json :=
        { arow.review_json with
            genre := some grow.name,
            categoryName := override arow.review_json.categoryName (jsStr grow.category_name) } } := by
  obtain ⟨-, -, -, -, -, -, -, -, -, -, -, harid, -⟩ := hwf
  have haid : arow.id = rid := by
    have h := List.find?_some harch
    simpa using h
  subst haid
  have hupd : updateReviewGenre gid arow.id db = (none, db) := by
    unfold updateReviewGenre
    rw [hrev]
  have harch2 : db.archived.find? (fun a => decide (a.id = arow.id)) = some arow := harch
  have hpatch : (db.archived.map (fun a =>
      if a.id = arow.id then
        { a with review_json :=
            { a.review_json with
                genre := some grow.name,
                categoryName := override a.review_json.categoryName (jsStr grow.category_name) } }
      else a)).find? (fun a => decide (a.id = arow.id)) =
      some { arow with review_json :=
        { arow.review_json with
            genre := some grow.name,
            categoryName := override arow.review_json.categoryName (jsStr grow.category_name) } } :=
    find?_replace_fn (fun a : ArchivedReview => decide (a.id = arow.id))
      ArchivedReview.id
      (fun a => { a with review_json :=
          { a.review_json with
              genre := some grow.name,
              categoryName := override a.review_json.categoryName (jsStr grow.category_name) } })
      db.archived arow harch2 harid (by simp)
  refine ⟨?_, ?_, ?_⟩ <;>
    simp only [patchReviewGenre, runTx, initState, patchReviewGenreTx, txCatch, txBegin,
      Tx.bind_apply, Tx.pure_apply, resolveCategory, resolveGenre, hcatid, hcatnm, hgid,
      txWriteRet, txWriteErr, txWrite, txRead, txCommit, hupd, harch, hrow,
      mergeArchivedGenrePatch, reduceIte, reduceCtorEq]
  exact hpatch

/-- C7 counterexample: a request to the review-genre route that fails
validation (no genreId, no genreName) but carries a categoryName has already
issued the category-upsert write statement inside the transaction before the
validation check runs, so validation is not checked before any write begins. -/
theorem c7_counterexample :
    (patchReviewGenre ⟨[], [], [], [], [], 1⟩ 7 ⟨none, none, none, some "Action"⟩ none).1 =
      some PatchResult.badRequest ∧
    (patchReviewGenre ⟨[], [], [], [], [], 1⟩ 7 ⟨none, none, none, some "Action"⟩ none).2.events =
      [Ev.tbegin, Ev.twrite] := by
  constructor <;> rfl

/-- C7 amended: when the review-genre request supplies neither genreId nor
genreName it fails with the validation error and no committed row in any
table is created or modified (the transaction is never committed) — though
the category-upsert write may already have been issued inside the
never-committed transaction. -/
theorem c7_validation_no_committed_write (db : DB) (rid : Nat) (body : GBody)
    (hgid : jsId body.genreId = none) (hgnm : jsStr body.genreName = none) :
    (patchReviewGenre db rid body none).1 = some PatchResult.badRequest ∧
    (patchReviewGenre db rid body none).2.committed = db := by
  cases hc1 : jsId body.categoryId with
  | some i =>
      simp only [patchReviewGenre, runTx, initState, patchReviewGenreTx, txCatch, txBegin,
        Tx.bind_apply, Tx.pure_apply, resolveCategory, resolveGenre, hc1, hgid, hgnm,
        reduceIte, reduceCtorEq]
      exact ⟨trivial, trivial⟩
  | none =>
      cases hc2 : jsStr body.categoryName with
      | none =>
          simp only [patchReviewGenre, runTx, initState, patchReviewGenreTx, txCatch, txBegin,
            Tx.bind_apply, Tx.pure_apply, resolveCategory, resolveGenre, hc1, hc2, hgid, hgnm,
            reduceIte, reduceCtorEq]
          exact ⟨trivial, trivial⟩
      | some cn =>
          cases hup : upsertCategory db cn with
          | mk r db2 =>
              simp only [patchReviewGenre, runTx, initState, patchReviewGenreTx, txCatch, txBegin,
                Tx.bind_apply, Tx.pure_apply, resolveCategory, resolveGenre, hc1, hc2, hgid, hgnm,
                txWriteRet, txWriteErr, hup, reduceIte, reduceCtorEq]
              exact ⟨trivial, trivial⟩

/-- C8 (code bug): on the validation-failure path of the review-genre route
the handler returns 400 from inside the open transaction without issuing
COMMIT or ROLLBACK, so a BEGIN is left unclosed on that exit path. -/
theorem c8_begin_left_open :
    (patchReviewGenre ⟨[], [], [], [], [], 1⟩ 7 ⟨none, none, none, some "Action"⟩ none).1 =
      some PatchResult.badRequest ∧
    txClosed
      (patchReviewGenre ⟨[], [], [], [], [], 1⟩ 7
        ⟨none, none, none, some "Action"⟩ none).2.events = false := by
  constructor <;> rfl

/-- The category upsert touches only the categories table and the id supply,
which never decreases. -/
theorem upsertCategory_part (db : DB) (n : String) :
    (upsertCategory db n).2.games = db.games ∧
    (upsertCategory db n).2.reviews = db.reviews ∧
    (upsertCategory db n).2.archived = db.archived ∧
    (upsertCategory db n).2.genres = db.genres ∧
    db.nextId ≤ (upsertCategory db n).2.nextId := by
  unfold upsertCategory
  cases hfc : findCategoryByLower db n <;> simp [Nat.le_succ]

/-- The genre upsert touches only the genres table and the id supply, which
never decreases. -/
theorem upsertGenre_part (db : DB) (n : String) (catId : Option Nat) :
    (upsertGenre db n catId).2.games = db.games ∧
    (upsertGenre db n catId).2.reviews = db.reviews ∧
    (upsertGenre db n catId).2.archived = db.archived ∧
    (upsertGenre db n catId).2.categories = db.categories ∧
    db.nextId ≤ (upsertGenre db n catId).2.nextId := by
  unfold upsertGenre
  cases hfc : findGenreByLower db n <;> simp [Nat.le_succ]

@[simp] theorem setArchivedGameName_games (i : Nat) (v : String) (db : DB) :
    (setArchivedGameName i v db).games = db.games := rfl

@[simp] theorem setArchivedGameName_reviews (i : Nat) (v : String) (db : DB) :
    (setArchivedGameName i v db).reviews = db.reviews := rfl

@[simp] theorem setArchivedGameName_genres (i : Nat) (v : String) (db : DB) :
    (setArchivedGameName i v db).genres = db.genres := rfl

@[simp] theorem setArchivedGameName_categories (i : Nat) (v : String) (db : DB) :
    (setArchivedGameName i v db).categories = db.categories := rfl

@[simp] theorem setArchivedGameName_nextId (i : Nat) (v : String) (db : DB) :
    (setArchivedGameName i v db).nextId = db.nextId := rfl

@[simp] theorem setArchivedGenre_games (i : Nat) (v : String) (db : DB) :
    (setArchivedGenre i v db).games = db.games := rfl

@[simp] theorem setArchivedGenre_reviews (i : Nat) (v : String) (db : DB) :
    (setArchivedGenre i v db).reviews = db.reviews := rfl

@[simp] theorem setArchivedGenre_genres (i : Nat) (v : String) (db : DB) :
    (setArchivedGenre i v db).genres = db.genres := rfl

@[simp] theorem setArchivedGenre_categories (i : Nat) (v : String) (db : DB) :
    (setArchivedGenre i v db).categories = db.categories := rfl

@[simp] theorem setArchivedGenre_nextId (i : Nat) (v : String) (db : DB) :
    (setArchivedGenre i v db).nextId = db.nextId := rfl

@[simp] theorem setArchivedCategoryName_games (i : Nat) (v : String) (db : DB) :
    (setArchivedCategoryName i v db).games = db.games := rfl

@[simp] theorem setArchivedCategoryName_reviews (i : Nat) (v : String) (db : DB) :
    (setArchivedCategoryName i v db).reviews = db.reviews := rfl

@[simp] theorem setArchivedCategoryName_genres (i : Nat) (v : String) (db : DB) :
    (setArchivedCategoryName i v db).genres = db.genres := rfl

@[simp] theorem setArchivedCategoryName_categories (i : Nat) (v : String) (db : DB) :
    (setArchivedCategoryName i v db).categories = db.categories := rfl

@[simp] theorem setArchivedCategoryName_nextId (i : Nat) (v : String) (db : DB) :
    (setArchivedCategoryName i v db).nextId = db.nextId := rfl

@[simp] theorem genreNamesFor_setArchivedGameName (i : Nat) (v : String) (db : DB) (gid : Nat) :
    genreNamesFor (setArchivedGameName i v db) gid = genreNamesFor db gid := rfl

/-- Running the category-resolution step on a healthy connection always
succeeds, issues no commit, and touches only the categories table. -/
theorem resolveCategory_frame (cid : Option Nat) (cnm : Option String) (s : TxState)
    (hab : s.aborted = false) (hfa : s.failAt = none) :
    ∃ r s2, resolveCategory cid cnm s = (some r, s2) ∧
      s2.committed = s.committed ∧ s2.aborted = false ∧ s2.failed = s.failed ∧
      s2.failAt = none ∧
      s2.working.games = s.working.games ∧
      s2.working.reviews = s.working.reviews ∧
      s2.working.archived = s.working.archived ∧
      s2.working.genres = s.working.genres ∧
      s.working.nextId ≤ s2.working.nextId := by
  cases hc1 : jsId cid with
  | some i =>
      refine ⟨some i, s, ?_, rfl, hab, rfl, hfa, rfl, rfl, rfl, rfl, Nat.le_refl _⟩
      simp only [resolveCategory, hc1, Tx.pure_apply]
  | none =>
      cases hc2 : jsStr cnm with
      | none =>
          refine ⟨none, s, ?_, rfl, hab, rfl, hfa, rfl, rfl, rfl, rfl, Nat.le_refl _⟩
          simp only [resolveCategory, hc1, hc2, Tx.pure_apply]
      | some cn =>
          have hp := upsertCategory_part s.working cn
          refine ⟨some (upsertCategory s.working cn).1.1,
            { s with working := (upsertCategory s.working cn).2,
                     writeCount := s.writeCount + 1,
                     events := s.events ++ [Ev.twrite] }, ?_,
            rfl, hab, rfl, hfa, hp.1, hp.2.1, hp.2.2.1, hp.2.2.2.1, hp.2.2.2.2⟩
          cases hup : upsertCategory s.working cn with
          | mk r db2 =>
              simp only [resolveCategory, hc1, hc2, Tx.bind_apply, Tx.pure_apply,
                txWriteRet, txWriteErr, hab, hfa, hup, reduceIte, reduceCtorEq]

/-- Running the genre-resolution step on a healthy connection always
succeeds, issues no commit, and touches only the genres table. -/
theorem resolveGenre_frame (gid : Option Nat) (gnm : Option String) (fcid : Option Nat)
    (s : TxState) (hab : s.aborted = false) (hfa : s.failAt = none) :
    ∃ r s2, resolveGenre gid gnm fcid s = (some r, s2) ∧
      s2.committed = s.committed ∧ s2.aborted = false ∧ s2.failed = s.failed ∧
      s2.failAt = none ∧
      s2.working.games = s.working.games ∧
      s2.working.reviews = s.working.reviews ∧
      s2.working.archived = s.working.archived ∧
      s2.working.categories = s.working.categories ∧
      s.working.nextId ≤ s2.working.nextId := by
  cases hc1 : jsId gid with
  | some i =>
      refine ⟨some i, s, ?_, rfl, hab, rfl, hfa, rfl, rfl, rfl, rfl, Nat.le_refl _⟩
      simp only [resolveGenre, hc1, Tx.pure_apply]
  | none =>
      cases hc2 : jsStr gnm with
      | none =>
          refine ⟨none, s, ?_, rfl, hab, rfl, hfa, rfl, rfl, rfl, rfl, Nat.le_refl _⟩
          simp only [resolveGenre, hc1, hc2, Tx.pure_apply]
      | some gn =>
          have hp := upsertGenre_part s.working gn fcid
          refine ⟨some (upsertGenre s.working gn fcid).1.id,
            { s with working := (upsertGenre s.working gn fcid).2,
                     writeCount := s.writeCount + 1,
                     events := s.events ++ [Ev.twrite] }, ?_,
            rfl, hab, rfl, hfa, hp.1, hp.2.1, hp.2.2.1, hp.2.2.2.1, hp.2.2.2.2⟩
          cases hup : upsertGenre s.working gn fcid with
          | mk r db2 =>
              simp only [resolveGenre, hc1, hc2, Tx.bind_apply, Tx.pure_apply,
                txWriteRet, txWriteErr, hab, hfa, hup, reduceIte, reduceCtorEq]

/-- The metadata write-back block on a healthy connection always succeeds,
issues no commit, and touches only the archived table. -/
theorem persistMetadata_frame (aid : Nat) (gn : String) (fg : Option Nat) (s : TxState)
    (hab : s.aborted = false) (hfa : s.failAt = none) :
    ∃ s2, persistMetadata aid gn fg s = (some (), s2) ∧
      s2.committed = s.committed ∧ s2.aborted = false ∧ s2.failed = s.failed ∧
      s2.failAt = none ∧
      s2.working.games = s.working.games ∧
      s2.working.reviews = s.working.reviews ∧
      s2.working.genres = s.working.genres ∧
      s2.working.categories = s.working.categories ∧
      s2.working.nextId = s.working.nextId := by
  unfold persistMetadata
  cases fg with
  | none =>
      by_cases hgn : gn = "" <;>
        simp only [Tx.bind_apply, Tx.pure_apply, txWrite, txWriteRet, txWriteErr, txRead,
          hab, hfa, hgn, reduceIte, reduceCtorEq, if_true, if_false, ite_true, ite_false] <;>
        refine ⟨_, rfl, rfl, ?_, rfl, ?_, ?_, ?_, ?_, ?_, ?_⟩ <;>
        simp [hab, hfa]
  | some gid =>
      rcases hnm : genreNamesFor s.working gid with ⟨n1, n2⟩
      by_cases hgn : gn = "" <;> cases n1 <;> cases n2 <;>
        simp only [Tx.bind_apply, Tx.pure_apply, txWrite, txWriteRet, txWriteErr, txRead,
          hab, hfa, hgn, hnm, reduceIte, reduceCtorEq, if_true, if_false, ite_true, ite_false,
          genreNamesFor_setArchivedGameName] <;>
        refine ⟨_, rfl, rfl, ?_, rfl, ?_, ?_, ?_, ?_, ?_, ?_⟩ <;>
        simp [hab, hfa]

/-- The response-metadata lookup reads but never writes. -/
theorem lookupGenreMeta_frame (fg : Option Nat) (s : TxState) (hab : s.aborted = false) :
    ∃ gm, lookupGenreMeta fg s = (some gm, s) := by
  cases fg <;> simp [lookupGenreMeta, txRead, Tx.pure, hab]

/-- C1 amended: for an archive row whose trimmed game_name names a game that
does not exist, when no normalized review uses the archive row's id (the new
row's primary key), materialize inserts a new normalized review whose id
equals the archive row's id and returns materialized = "created". -/
theorem c1_materialize_creates_when_absent (db : DB) (aid : Nat) (body : GBody)
    (arow : ArchivedReview)
    (hwf : DBwf db)
    (harch : findArchivedById db aid = some arow)
    (hgn : trimStr (arow.review_json.game_name.getD "") ≠ "")
    (hnogame : findGameByName db (trimStr (arow.review_json.game_name.getD "")) = none)
    (hnorev : ∀ r ∈ db.reviews, r.id ≠ aid) :
    ∃ rv gm,
      (materialize db aid body none).1 = some (MatResult.ok (some rv) gm "created") ∧
      rv.id = aid ∧
      findReviewById (materialize db aid body none).2.committed aid = some rv := by
  obtain ⟨-, -, -, -, -, -, -, hgamelt, -, -, hrevgid, -, -⟩ := hwf
  have hanyg : ({ db with nextId := db.nextId + 1 } : DB).games.any
      (fun g => g.id = db.nextId) = false := by
    rw [List.any_eq_false]
    intro x hx
    simp only [decide_eq_true_eq]
    exact Nat.ne_of_lt (hgamelt x hx)
  have hinsg : insertGame db.nextId (trimStr (arow.review_json.game_name.getD ""))
      { db with nextId := db.nextId + 1 } =
      some ((), { db with
        games := db.games ++ [⟨db.nextId, trimStr (arow.review_json.game_name.getD "")⟩],
        nextId := db.nextId + 1 }) := by
    unfold insertGame
    rw [hanyg]
    rfl
  simp only [materialize, runTx, initState, materializeTx, txCatch, Tx.bind_apply, Tx.pure_apply,
    txBegin, txRead, txUuid, txWriteErr, harch, if_neg hgn, hnogame, hinsg,
    reduceIte, reduceCtorEq, List.nil_append, List.cons_append, List.append_nil]
  obtain ⟨r1, s3, heq3, hcom3, hab3, hfl3, hfa3, hgam3, hrev3, harc3, hgen3, hnx3⟩ :=
    resolveCategory_frame body.categoryId body.categoryName
      ⟨db, { db with
          games := db.games ++ [⟨db.nextId, trimStr (arow.review_json.game_name.getD "")⟩],
          nextId := db.nextId + 1 },
        [Ev.tbegin, Ev.twrite], 0 + 1, none, false, false⟩ rfl rfl
  rw [heq3]
  simp only []
  obtain ⟨r2, s4, heq4, hcom4, hab4, hfl4, hfa4, hgam4, hrev4, harc4, hcat4, hnx4⟩ :=
    resolveGenre_frame body.genreId body.genreName r1 s3 hab3 hfa3
  rw [heq4]
  simp only []
  have hrevs4 : s4.working.reviews = db.reviews := by rw [hrev4, hrev3]
  have hfind4 : findReviewByGameId s4.working db.nextId = none := by
    unfold findReviewByGameId
    rw [hrevs4, List.find?_eq_none]
    intro r hr
    simp only [decide_eq_true_eq]
    intro hcontra
    have hmemf : db.nextId ∈ db.reviews.filterMap (fun r => r.game_id) :=
      List.mem_filterMap.mpr ⟨r, hr, hcontra⟩
    exact Nat.lt_irrefl _ (hrevgid _ hmemf)
  have hanyr : s4.working.reviews.any (fun x => x.id = aid) = false := by
    rw [hrevs4, List.any_eq_false]
    intro x hx
    simp only [decide_eq_true_eq]
    exact hnorev x hx
  have hinsr : insertReview
      ⟨aid, some db.nextId, jsStr arow.review_json.title, jsStr arow.review_json.review_text,
       arow.review_json.rating, arow.review_json.positive_points.getD [],
       arow.review_json.negative_points.getD [], arow.review_json.tags.getD [], r2, none⟩
      s4.working =
      some (⟨aid, some db.nextId, jsStr arow.review_json.title, jsStr arow.review_json.review_text,
        arow.review_json.rating, arow.review_json.positive_points.getD [],
        arow.review_json.negative_points.getD [], arow.review_json.tags.getD [], r2, none⟩,
        { s4.working with reviews := s4.working.reviews ++
          [⟨aid, some db.nextId, jsStr arow.review_json.title, jsStr arow.review_json.review_text,
            arow.review_json.rating, arow.review_json.positive_points.getD [],
            arow.review_json.negative_points.getD [], arow.review_json.tags.getD [], r2, none⟩] }) := by
    unfold insertReview
    rw [hanyr]
    rfl
  simp only [txWriteErr, hab4, hfa4, hfind4, hinsr, reduceIte, reduceCtorEq, Tx.bind_apply,
    Tx.pure_apply, txRead]
  obtain ⟨s6, heq6, hcom6, hab6, hfl6, hfa6, hgam6, hrev6, hgen6, hcatfr6, hnx6⟩ :=
    persistMetadata_frame aid (trimStr (arow.review_json.game_name.getD "")) r2
      ⟨s4.committed,
       { s4.working with reviews := s4.working.reviews ++
          [⟨aid, some db.nextId, jsStr arow.review_json.title, jsStr arow.review_json.review_text,
            arow.review_json.rating, arow.review_json.positive_points.getD [],
            arow.review_json.negative_points.getD [], arow.review_json.tags.getD [], r2, none⟩] },
       s4.events ++ [Ev.twrite], s4.writeCount + 1, none, false, s4.failed⟩
      rfl rfl
  have heq6c : txCatch (persistMetadata aid (trimStr (arow.review_json.game_name.getD "")) r2)
      (Pure.pure ())
      ⟨s4.committed,
       { s4.working with reviews := s4.working.reviews ++
          [⟨aid, some db.nextId, jsStr arow.review_json.title, jsStr arow.review_json.review_text,
            arow.review_json.rating, arow.review_json.positive_points.getD [],
            arow.review_json.negative_points.getD [], arow.review_json.tags.getD [], r2, none⟩] },
       s4.events ++ [Ev.twrite], s4.writeCount + 1, none, false, s4.failed⟩ = (some (), s6) := by
    unfold txCatch
    rw [heq6]
  simp only [] at heq6c
  rw [heq6c]
  simp only []
  obtain ⟨gm, heq7⟩ := lookupGenreMeta_frame r2 s6 hab6
  rw [heq7]
  simp only []
  have hcommit : txCommit s6 = (some (),
      { s6 with committed := s6.working, events := s6.events ++ [Ev.tcommit] }) := by
    unfold txCommit
    rw [hab6]
    rfl
  rw [hcommit]
  refine ⟨_, gm, rfl, rfl, ?_⟩
  have hrev6f : s6.working.reviews = db.reviews ++
      [⟨aid, some db.nextId, jsStr arow.review_json.title, jsStr arow.review_json.review_text,
        arow.review_json.rating, arow.review_json.positive_points.getD [],
        arow.review_json.negative_points.getD [], arow.review_json.tags.getD [], r2, none⟩] := by
    rw [hrev6]
    simp only []
    rw [hrevs4]
  have hfr : db.reviews.find? (fun r => decide (r.id = aid)) = none := by
    rw [List.find?_eq_none]
    intro r hr
    simp only [decide_eq_true_eq]
    exact hnorev r hr
  unfold findReviewById
  rw [hrev6f]
  exact find?_append_right _ _ _ hfr (by simp)

/-- C2: for an archive row whose resolved game already has exactly one
normalized review, materialize updates that existing review (its id, not the
archive id, is the target), returns materialized = "updated", and afterwards
exactly one normalized review references that game's id. -/
theorem c2_materialize_updates_when_present (db : DB) (aid : Nat) (body : GBody)
    (arow : ArchivedReview) (gg : Game) (r0 : Review)
    (hwf : DBwf db)
    (harch : findArchivedById db aid = some arow)
    (hgn : trimStr (arow.review_json.game_name.getD "") ≠ "")
    (hgame : findGameByName db (trimStr (arow.review_json.game_name.getD "")) = some gg)
    (hone : db.reviews.filter (fun r => r.game_id = some gg.id) = [r0])
    (hneq : r0.id ≠ aid) :
    ∃ rv gm,
      (materialize db aid body none).1 = some (MatResult.ok (some rv) gm "updated") ∧
      rv.id = r0.id ∧ rv.id ≠ aid ∧
      (materialize db aid body none).2.committed.reviews.filter
        (fun r => r.game_id = some gg.id) = [rv] := by
  obtain ⟨-, -, -, -, -, -, -, -, hrevids, -, -, -, -⟩ := hwf
  have hmem0 : r0 ∈ db.reviews := by
    have hf : r0 ∈ db.reviews.filter (fun r => r.game_id = some gg.id) := by
      rw [hone]
      exact List.mem_singleton.mpr rfl
    exact List.mem_of_mem_filter hf
  have hidfind : db.reviews.find? (fun x => decide (x.id = r0.id)) = some r0 := by
    apply find?_eq_of_mem_unique _ _ _ hmem0 (by simp)
    refine hrevids.imp ?_
    intro a b hab ha hb
    exact hab ((of_decide_eq_true ha).trans (of_decide_eq_true hb).symm)
  simp only [materialize, runTx, initState, materializeTx, txCatch, Tx.bind_apply, Tx.pure_apply,
    txBegin, txRead, harch, if_neg hgn, hgame,
    reduceIte, reduceCtorEq, List.nil_append, List.cons_append, List.append_nil]
  obtain ⟨r1, s3, heq3, hcom3, hab3, hfl3, hfa3, hgam3, hrev3, harc3, hgen3, hnx3⟩ :=
    resolveCategory_frame body.categoryId body.categoryName
      ⟨db, db, [Ev.tbegin], 0, none, false, false⟩ rfl rfl
  rw [heq3]
  simp only []
  obtain ⟨r2, s4, heq4, hcom4, hab4, hfl4, hfa4, hgam4, hrev4, harc4, hcat4, hnx4⟩ :=
    resolveGenre_frame body.genreId body.genreName r1 s3 hab3 hfa3
  rw [heq4]
  simp only []
  have hrevs4 : s4.working.reviews = db.reviews := by rw [hrev4, hrev3]
  have hfind0 : findReviewByGameId s4.working gg.id = some r0 := by
    unfold findReviewByGameId
    rw [hrevs4]
    exact filter_singleton_find? _ _ _ hone
  have hread : findReviewById
      (updateReviewFull r0.id (jsStr arow.review_json.title) (jsStr arow.review_json.review_text)
        arow.review_json.rating (arow.review_json.positive_points.getD [])
        (arow.review_json.negative_points.getD []) (arow.review_json.tags.getD [])
        r2 (some gg.id) s4.working) r0.id =
      some { r0 with
        title := jsStr arow.review_json.title,
        review_text := jsStr arow.review_json.review_text,
        rating := arow.review_json.rating,
        positive_points := arow.review_json.positive_points.getD [],
        negative_points := arow.review_json.negative_points.getD [],
        tags := arow.review_json.tags.getD [],
        genre_id := r2, game_id := some gg.id } := by
    unfold updateReviewFull findReviewById
    simp only []
    rw [hrevs4]
    exact find?_replace_fn (fun x : Review => decide (x.id = r0.id)) Review.id
      (fun x => { x with
        title := jsStr arow.review_json.title,
        review_text := jsStr arow.review_json.review_text,
        rating := arow.review_json.rating,
        positive_points := arow.review_json.positive_points.getD [],
        negative_points := arow.review_json.negative_points.getD [],
        tags := arow.review_json.tags.getD [],
        genre_id := r2, game_id := some gg.id })
      db.reviews r0 hidfind hrevids (by simp)
  simp only [txWriteErr, txWrite, txWriteRet, hab4, hfa4, hfind0, hread, reduceIte, reduceCtorEq,
    Tx.bind_apply, Tx.pure_apply, txRead]
  obtain ⟨s6, heq6, hcom6, hab6, hfl6, hfa6, hgam6, hrev6, hgen6, hcatfr6, hnx6⟩ :=
    persistMetadata_frame aid (trimStr (arow.review_json.game_name.getD "")) r2
      ⟨s4.committed,
       updateReviewFull r0.id (jsStr arow.review_json.title) (jsStr arow.review_json.review_text)
         arow.review_json.rating (arow.review_json.positive_points.getD [])
         (arow.review_json.negative_points.getD []) (arow.review_json.tags.getD [])
         r2 (some gg.id) s4.working,
       s4.events ++ [Ev.twrite], s4.writeCount + 1, none, false, s4.failed⟩
      rfl rfl
  have heq6c : txCatch (persistMetadata aid (trimStr (arow.review_json.game_name.getD "")) r2)
      (Pure.pure ())
      ⟨s4.committed,
       updateReviewFull r0.id (jsStr arow.review_json.title) (jsStr arow.review_json.review_text)
         arow.review_json.rating (arow.review_json.positive_points.getD [])
         (arow.review_json.negative_points.getD []) (arow.review_json.tags.getD [])
         r2 (some gg.id) s4.working,
       s4.events ++ [Ev.twrite], s4.writeCount + 1, none, false, s4.failed⟩ = (some (), s6) := by
    unfold txCatch
    rw [heq6]
  simp only [] at heq6c
  rw [heq6c]
  simp only []
  obtain ⟨gm, heq7⟩ := lookupGenreMeta_frame r2 s6 hab6
  rw [heq7]
  simp only []
  have hcommit : txCommit s6 = (some (),
      { s6 with committed := s6.working, events := s6.events ++ [Ev.tcommit] }) := by
    unfold txCommit
    rw [hab6]
    rfl
  rw [hcommit]
  refine ⟨_, gm, rfl, rfl, hneq, ?_⟩
  have hrev6f : s6.working.reviews = db.reviews.map
      (fun x => if x.id = r0.id then
        { x with
          title := jsStr arow.review_json.title,
          review_text := jsStr arow.review_json.review_text,
          rating := arow.review_json.rating,
          positive_points := arow.review_json.positive_points.getD [],
          negative_points := arow.review_json.negative_points.getD [],
          tags := arow.review_json.tags.getD [],
          genre_id := r2, game_id := some gg.id }
        else x) := by
    rw [hrev6]
    simp only [updateReviewFull]
    rw [hrevs4]
  rw [hrev6f]
  exact filter_map_replace_fn (fun r : Review => decide (r.game_id = some gg.id)) Review.id
    (fun x => { x with
      title := jsStr arow.review_json.title,
      review_text := jsStr arow.review_json.review_text,
      rating := arow.review_json.rating,
      positive_points := arow.review_json.positive_points.getD [],
      negative_points := arow.review_json.negative_points.getD [],
      tags := arow.review_json.tags.getD [],
      genre_id := r2, game_id := some gg.id })
    db.reviews r0 hone hrevids (by simp)

/-- A keyed row update where the key is given as a separate value equal to
the matched row's key. -/
theorem find?_replace_key {α : Type} (q : α → Bool) (key : α → Nat) (f : α → α) (k : Nat)
    (l : List α) (c : α) (hf : l.find? q = some c)
    (hp : l.Pairwise (fun a b => key a ≠ key b))
    (hq : q (f c) = true) (hk : key c = k) :
    (l.map fun x => if key x = k then f x else x).find? q = some (f c) := by
  rw [← hk]
  exact find?_replace_fn q key f l c hf hp hq

/-- Resolving category name "Action" upserts it: the resulting category id
carries exactly the name "Action" afterwards (the upsert rewrites casing). -/
theorem resolveCategory_action (s : TxState)
    (hab : s.aborted = false) (hfa : s.failAt = none)
    (hpw : s.working.categories.Pairwise (fun a b => a.id ≠ b.id))
    (hlt : ∀ c ∈ s.working.categories, c.id < s.working.nextId) :
    ∃ cid s2, resolveCategory none (some "Action") s = (some (some cid), s2) ∧
      s2.committed = s.committed ∧ s2.aborted = false ∧ s2.failed = s.failed ∧ s2.failAt = none ∧
      s2.working.games = s.working.games ∧ s2.working.reviews = s.working.reviews ∧
      s2.working.archived = s.working.archived ∧ s2.working.genres = s.working.genres ∧
      s.working.nextId ≤ s2.working.nextId ∧
      findCategoryById s2.working cid = some ⟨cid, "Action"⟩ := by
  cases hfc : findCategoryByLower s.working "Action" with
  | some c =>
      have hmem : c ∈ s.working.categories := List.mem_of_find?_eq_some hfc
      have e := upsertCategory_found s.working "Action" c hfc
      have hidf : s.working.categories.find? (fun x => decide (x.id = c.id)) = some c := by
        apply find?_eq_of_mem_unique _ _ _ hmem (by simp)
        refine hpw.imp ?_
        intro a b hab2 ha hb
        exact hab2 ((of_decide_eq_true ha).trans (of_decide_eq_true hb).symm)
      have hfind : findCategoryById
          { s.working with
              categories := s.working.categories.map (fun x =>
                if x.id = c.id then { x with name := "Action" } else x) } c.id =
          some ⟨c.id, "Action"⟩ :=
        find?_replace_fn (fun x : Category => decide (x.id = c.id)) Category.id
          (fun x => { x with name := "Action" }) s.working.categories c hidf hpw (by simp)
      refine ⟨c.id,
        { s with
            working := { s.working with
              categories := s.working.categories.map (fun x =>
                if x.id = c.id then { x with name := "Action" } else x) },
            writeCount := s.writeCount + 1, events := s.events ++ [Ev.twrite] },
        ?_, rfl, hab, rfl, hfa, rfl, rfl, rfl, rfl, Nat.le_refl _, hfind⟩
      simp only [resolveCategory, jsId, jsStr, Tx.bind_apply, Tx.pure_apply, txWriteRet,
        txWriteErr, hab, hfa, e, reduceIte, reduceCtorEq, String.reduceEq]
  | none =>
      have hidnone : s.working.categories.find? (fun x => decide (x.id = s.working.nextId)) =
          none := by
        rw [List.find?_eq_none]
        intro x hx
        simp only [decide_eq_true_eq]
        exact Nat.ne_of_lt (hlt x hx)
      have e := upsertCategory_fresh s.working "Action" hfc
      have hfind : findCategoryById
          { s.working with
              categories := s.working.categories ++ [⟨s.working.nextId, "Action"⟩],
              nextId := s.working.nextId + 1 } s.working.nextId =
          some ⟨s.working.nextId, "Action"⟩ :=
        find?_append_right (fun x : Category => decide (x.id = s.working.nextId))
          (⟨s.working.nextId, "Action"⟩ : Category) s.working.categories hidnone (by simp)
      refine ⟨s.working.nextId,
        { s with
            working := { s.working with
              categories := s.working.categories ++ [⟨s.working.nextId, "Action"⟩],
              nextId := s.working.nextId + 1 },
            writeCount := s.writeCount + 1, events := s.events ++ [Ev.twrite] },
        ?_, rfl, hab, rfl, hfa, rfl, rfl, rfl, rfl, Nat.le_succ _, hfind⟩
      simp only [resolveCategory, jsId, jsStr, Tx.bind_apply, Tx.pure_apply, txWriteRet,
        txWriteErr, hab, hfa, e, reduceIte, reduceCtorEq, String.reduceEq]

/-- Resolving genre name "Shooter" when no genre has that case-insensitive
name inserts a fresh genre row named exactly "Shooter" linked to the given
category. -/
theorem resolveGenre_shooter (s : TxState) (cid0 : Nat)
    (hab : s.aborted = false) (hfa : s.failAt = none)
    (hfresh : ∀ g ∈ s.working.genres, lowerStr g.name ≠ "shooter")
    (hlt : ∀ g ∈ s.working.genres, g.id < s.working.nextId) :
    ∃ gid s2, resolveGenre none (some "Shooter") (some cid0) s = (some (some gid), s2) ∧
      s2.committed = s.committed ∧ s2.aborted = false ∧ s2.failed = s.failed ∧ s2.failAt = none ∧
      s2.working.games = s.working.games ∧ s2.working.reviews = s.working.reviews ∧
      s2.working.archived = s.working.archived ∧
      s2.working.categories = s.working.categories ∧
      findGenreById s2.working gid = some ⟨gid, "Shooter", some cid0⟩ := by
  have hfln : findGenreByLower s.working "Shooter" = none := by
    unfold findGenreByLower
    rw [List.find?_eq_none]
    intro g hg
    simp only [decide_eq_true_eq]
    have hlow : lowerStr "Shooter" = "shooter" := by decide
    rw [hlow]
    exact hfresh g hg
  have hidnone : s.working.genres.find? (fun x => decide (x.id = s.working.nextId)) = none := by
    rw [List.find?_eq_none]
    intro x hx
    simp only [decide_eq_true_eq]
    exact Nat.ne_of_lt (hlt x hx)
  have e := upsertGenre_fresh s.working "Shooter" (some cid0) hfln
  have hfind : findGenreById
      { s.working with
          genres := s.working.genres ++ [⟨s.working.nextId, "Shooter", some cid0⟩],
          nextId := s.working.nextId + 1 } s.working.nextId =
      some ⟨s.working.nextId, "Shooter", some cid0⟩ :=
    find?_append_right (fun x : Genre => decide (x.id = s.working.nextId))
      (⟨s.working.nextId, "Shooter", some cid0⟩ : Genre) s.working.genres hidnone (by simp)
  refine ⟨s.working.nextId,
    { s with
        working := { s.working with
          genres := s.working.genres ++ [⟨s.working.nextId, "Shooter", some cid0⟩],
          nextId := s.working.nextId + 1 },
        writeCount := s.writeCount + 1, events := s.events ++ [Ev.twrite] },
    ?_, rfl, hab, rfl, hfa, rfl, rfl, rfl, rfl, hfind⟩
  simp only [resolveGenre, jsId, jsStr, Tx.bind_apply, Tx.pure_apply, txWriteRet,
    txWriteErr, hab, hfa, e, reduceIte, reduceCtorEq, String.reduceEq]

/-- The metadata write-back with a genre that resolves to name "Shooter" and
category name "Action" merges exactly those display names (and the trimmed
game name, when nonblank) into the archive row's JSON, leaving all other
fields of the JSON unchanged. -/
theorem persistMetadata_spec (aid : Nat) (gn : String) (gid0 cid0 : Nat) (s : TxState)
    (arow2 : ArchivedReview)
    (hab : s.aborted = false) (hfa : s.failAt = none)
    (hg : findGenreById s.working gid0 = some ⟨gid0, "Shooter", some cid0⟩)
    (hc : findCategoryById s.working cid0 = some ⟨cid0, "Action"⟩)
    (ha : findArchivedById s.working aid = some arow2)
    (hpw : s.working.archived.Pairwise (fun a b => a.id ≠ b.id)) :
    ∃ s2, persistMetadata aid gn (some gid0) s = (some (), s2) ∧
      s2.committed = s.committed ∧ s2.aborted = false ∧ s2.failed = s.failed ∧ s2.failAt = none ∧
      findArchivedById s2.working aid = some { arow2 with review_json :=
        { arow2.review_json with
            game_name := if gn = "" then arow2.review_json.game_name else some gn,
            genre := some "Shooter",
            categoryName := some "Action" } } := by
  have haid : arow2.id = aid := by
    have h := List.find?_some ha
    simpa using h
  have hnm : genreNamesFor s.working gid0 = (some "Shooter", some "Action") := by
    unfold genreNamesFor
    simp [hg, hc, jsStr]
  by_cases hgn : gn = ""
  · have hrep1 : findArchivedById (setArchivedGenre aid "Shooter" s.working) aid =
        some { arow2 with review_json :=
          { arow2.review_json with genre := some "Shooter" } } :=
      find?_replace_key (fun a : ArchivedReview => decide (a.id = aid))
        ArchivedReview.id
        (fun a => { a with review_json := { a.review_json with genre := some "Shooter" } })
        aid s.working.archived arow2 ha hpw (by simp [haid]) haid
    have hpw1 : (setArchivedGenre aid "Shooter" s.working).archived.Pairwise
        (fun a b => a.id ≠ b.id) :=
      pairwise_key_map_update ArchivedReview.id aid
        (fun a => { a with review_json := { a.review_json with genre := some "Shooter" } })
        (fun _ => rfl) s.working.archived hpw
    have hrep2 : findArchivedById
        (setArchivedCategoryName aid "Action" (setArchivedGenre aid "Shooter" s.working)) aid =
        some { arow2 with review_json :=
          { arow2.review_json with genre := some "Shooter", categoryName := some "Action" } } :=
      find?_replace_key (fun a : ArchivedReview => decide (a.id = aid))
        ArchivedReview.id
        (fun a => { a with review_json := { a.review_json with categoryName := some "Action" } })
        aid (setArchivedGenre aid "Shooter" s.working).archived
        ({ arow2 with review_json := { arow2.review_json with genre := some "Shooter" } })
        hrep1 hpw1 (by simp [haid]) haid
    refine ⟨⟨s.committed,
      setArchivedCategoryName aid "Action" (setArchivedGenre aid "Shooter" s.working),
      s.events ++ [Ev.twrite] ++ [Ev.twrite], s.writeCount + 1 + 1, none, false, s.failed⟩,
      ?_, rfl, rfl, rfl, rfl, ?_⟩
    · simp only [persistMetadata, if_pos hgn, Tx.bind_apply, Tx.pure_apply, txWrite, txWriteRet,
        txWriteErr, txRead, hab, hfa, hnm, reduceIte, reduceCtorEq, ite_true, ite_false,
        String.reduceEq]
    · simp only [if_pos hgn]
      exact hrep2
  · have hrep0 : findArchivedById (setArchivedGameName aid gn s.working) aid =
        some { arow2 with review_json :=
          { arow2.review_json with game_name := some gn } } :=
      find?_replace_key (fun a : ArchivedReview => decide (a.id = aid))
        ArchivedReview.id
        (fun a => { a with review_json := { a.review_json with game_name := some gn } })
        aid s.working.archived arow2 ha hpw (by simp [haid]) haid
    have hpw0 : (setArchivedGameName aid gn s.working).archived.Pairwise
        (fun a b => a.id ≠ b.id) :=
      pairwise_key_map_update ArchivedReview.id aid
        (fun a => { a with review_json := { a.review_json with game_name := some gn } })
        (fun _ => rfl) s.working.archived hpw
    have hrep1 : findArchivedById
        (setArchivedGenre aid "Shooter" (setArchivedGameName aid gn s.working)) aid =
        some { arow2 with review_json :=
          { arow2.review_json with game_name := some gn, genre := some "Shooter" } } :=
      find?_replace_key (fun a : ArchivedReview => decide (a.id = aid))
        ArchivedReview.id
        (fun a => { a with review_json := { a.review_json with genre := some "Shooter" } })
        aid (setArchivedGameName aid gn s.working).archived
        ({ arow2 with review_json := { arow2.review_json with game_name := some gn } })
        hrep0 hpw0 (by simp [haid]) haid
    have hpw1 : (setArchivedGenre aid "Shooter"
        (setArchivedGameName aid gn s.working)).archived.Pairwise
        (fun a b => a.id ≠ b.id) :=
      pairwise_key_map_update ArchivedReview.id aid
        (fun a => { a with review_json := { a.review_json with genre := some "Shooter" } })
        (fun _ => rfl) (setArchivedGameName aid gn s.working).archived hpw0
    have hrep2 : findArchivedById
        (setArchivedCategoryName aid "Action"
          (setArchivedGenre aid "Shooter" (setArchivedGameName aid gn s.working))) aid =
        some { arow2 with review_json :=
          { arow2.review_json with
              game_name := some gn, genre := some "Shooter", categoryName := some "Action" } } :=
      find?_replace_key (fun a : ArchivedReview => decide (a.id = aid))
        ArchivedReview.id
        (fun a => { a with review_json := { a.review_json with categoryName := some "Action" } })
        aid (setArchivedGenre aid "Shooter" (setArchivedGameName aid gn s.working)).archived
        ({ arow2 with review_json :=
          { arow2.review_json with game_name := some gn, genre := some "Shooter" } })
        hrep1 hpw1 (by simp [haid]) haid
    refine ⟨⟨s.committed,
      setArchivedCategoryName aid "Action"
        (setArchivedGenre aid "Shooter" (setArchivedGameName aid gn s.working)),
      s.events ++ [Ev.twrite] ++ [Ev.twrite] ++ [Ev.twrite], s.writeCount + 1 + 1 + 1,
      none, false, s.failed⟩,
      ?_, rfl, rfl, rfl, rfl, ?_⟩
    · simp only [persistMetadata, if_neg hgn, Tx.bind_apply, Tx.pure_apply, txWrite, txWriteRet,
        txWriteErr, txRead, hab, hfa, hnm, genreNamesFor_setArchivedGameName,
        reduceIte, reduceCtorEq, ite_true, ite_false, String.reduceEq]
    · simp only [if_neg hgn]
      exact hrep2

/-- C9 amended: materializing with genre name "Shooter" and category name
"Action" on a database with no case-insensitively matching genre, with an
already-trimmed archive game_name, and with no review occupying the archive
id, leaves the archive row's JSON with genre "Shooter", categoryName
"Action", and every other field — game_name included — unchanged. -/
theorem c9_archive_roundtrip_after_materialize (db : DB) (aid : Nat) (arow : ArchivedReview)
    (hwf : DBwf db)
    (harch : findArchivedById db aid = some arow)
    (htrim : trimStr (arow.review_json.game_name.getD "") = arow.review_json.game_name.getD "")
    (hfresh : ∀ g ∈ db.genres, lowerStr g.name ≠ "shooter")
    (hnorev : ∀ r ∈ db.reviews, r.id ≠ aid) :
    findArchivedById
      (materialize db aid ⟨none, none, some "Shooter", some "Action"⟩ none).2.committed aid =
      some { arow with review_json :=
        { arow.review_json with genre := some "Shooter", categoryName := some "Action" } } := by
  obtain ⟨hcatids, -, hcatlt, -, -, hgenlt, -, hgamelt, -, -, -, harchids, -⟩ := hwf
  by_cases hgname : trimStr (arow.review_json.game_name.getD "") = ""
  · simp only [materialize, runTx, initState, materializeTx, txCatch, Tx.bind_apply,
      Tx.pure_apply, Tx.pure, txBegin, txRead, harch, if_pos hgname, reduceIte, reduceCtorEq,
      List.nil_append, List.cons_append, List.append_nil]
    obtain ⟨cid, s3, heq3, hcom3, hab3, hfl3, hfa3, hgam3, hrev3, harc3, hgen3, hnx3, hfindc⟩ :=
      resolveCategory_action ⟨db, db, [Ev.tbegin], 0, none, false, false⟩ rfl rfl
        hcatids hcatlt
    rw [heq3]
    simp only []
    have hfresh3 : ∀ g ∈ s3.working.genres, lowerStr g.name ≠ "shooter" := by
      intro g hg
      rw [hgen3] at hg
      exact hfresh g hg
    have hlt3 : ∀ g ∈ s3.working.genres, g.id < s3.working.nextId := by
      intro g hg
      rw [hgen3] at hg
      exact Nat.lt_of_lt_of_le (hgenlt g hg) hnx3
    obtain ⟨gid, s4, heq4, hcom4, hab4, hfl4, hfa4, hgam4, hrev4, harc4, hcat4, hfindg⟩ :=
      resolveGenre_shooter s3 cid hab3 hfa3 hfresh3 hlt3
    rw [heq4]
    simp only []
    have hrevs4 : s4.working.reviews = db.reviews := by rw [hrev4, hrev3]
    have hanyr : s4.working.reviews.any (fun x => x.id = aid) = false := by
      rw [hrevs4, List.any_eq_false]
      intro x hx
      simp only [decide_eq_true_eq]
      exact hnorev x hx
    have hinsr : insertReview
        ⟨aid, none, jsStr arow.review_json.title, jsStr arow.review_json.review_text,
         arow.review_json.rating, arow.review_json.positive_points.getD [],
         arow.review_json.negative_points.getD [], arow.review_json.tags.getD [],
         some gid, none⟩ s4.working =
        some (⟨aid, none, jsStr arow.review_json.title, jsStr arow.review_json.review_text,
          arow.review_json.rating, arow.review_json.positive_points.getD [],
          arow.review_json.negative_points.getD [], arow.review_json.tags.getD [],
          some gid, none⟩,
          { s4.working with reviews := s4.working.reviews ++
            [⟨aid, none, jsStr arow.review_json.title, jsStr arow.review_json.review_text,
              arow.review_json.rating, arow.review_json.positive_points.getD [],
              arow.review_json.negative_points.getD [], arow.review_json.tags.getD [],
              some gid, none⟩] }) := by
      unfold insertReview
      rw [hanyr]
      rfl
    simp only [txWriteErr, hab4, hfa4, hinsr, reduceIte, reduceCtorEq, Tx.bind_apply,
      Tx.pure_apply]
    have hc4 : findCategoryById s4.working cid = some ⟨cid, "Action"⟩ := by
      unfold findCategoryById at hfindc ⊢
      rw [hcat4]
      exact hfindc
    have ha4 : findArchivedById s4.working aid = some arow := by
      unfold findArchivedById at harch ⊢
      rw [harc4, harc3]
      exact harch
    have hpw4 : s4.working.archived.Pairwise
        (fun a b : ArchivedReview => a.id ≠ b.id) := by
      rw [harc4, harc3]
      exact harchids
    obtain ⟨s6, heq6, hcom6, hab6, hfl6, hfa6, hfin6⟩ :=
      persistMetadata_spec aid (trimStr (arow.review_json.game_name.getD "")) gid cid
        ⟨s4.committed,
         { s4.working with reviews := s4.working.reviews ++
            [⟨aid, none, jsStr arow.review_json.title, jsStr arow.review_json.review_text,
              arow.review_json.rating, arow.review_json.positive_points.getD [],
              arow.review_json.negative_points.getD [], arow.review_json.tags.getD [],
              some gid, none⟩] },
         s4.events ++ [Ev.twrite], s4.writeCount + 1, none, false, s4.failed⟩
        arow rfl rfl hfindg hc4 ha4 hpw4
    rw [heq6]
    simp only []
    obtain ⟨gm, heq7⟩ := lookupGenreMeta_frame (some gid) s6 hab6
    rw [heq7]
    simp only []
    have hcommit : txCommit s6 = (some (),
        { s6 with committed := s6.working, events := s6.events ++ [Ev.tcommit] }) := by
      unfold txCommit
      rw [hab6]
      rfl
    rw [hcommit]
    have hfin : findArchivedById s6.working aid = some { arow with review_json :=
        { arow.review_json with genre := some "Shooter", categoryName := some "Action" } } := by
      rw [hfin6, if_pos hgname]
    exact hfin
  · have hsome : arow.review_json.game_name =
        some (trimStr (arow.review_json.game_name.getD "")) := by
      cases hj : arow.review_json.game_name with
      | none =>
          exfalso
          apply hgname
          rw [hj]
          decide
      | some s0 =>
          rw [hj] at htrim
          simp only [Option.getD] at htrim ⊢
          rw [htrim]
    cases hfg : findGameByName db (trimStr (arow.review_json.game_name.getD "")) with
    | some gg =>
        simp only [materialize, runTx, initState, materializeTx, txCatch, Tx.bind_apply,
          Tx.pure_apply, Tx.pure, txBegin, txRead, harch, if_neg hgname, hfg, reduceIte,
          reduceCtorEq, List.nil_append, List.cons_append, List.append_nil]
        obtain ⟨cid, s3, heq3, hcom3, hab3, hfl3, hfa3, hgam3, hrev3, harc3, hgen3, hnx3,
            hfindc⟩ :=
          resolveCategory_action ⟨db, db, [Ev.tbegin], 0, none, false, false⟩ rfl rfl
            hcatids hcatlt
        rw [heq3]
        simp only []
        have hfresh3 : ∀ g ∈ s3.working.genres, lowerStr g.name ≠ "shooter" := by
          intro g hg
          rw [hgen3] at hg
          exact hfresh g hg
        have hlt3 : ∀ g ∈ s3.working.genres, g.id < s3.working.nextId := by
          intro g hg
          rw [hgen3] at hg
          exact Nat.lt_of_lt_of_le (hgenlt g hg) hnx3
        obtain ⟨gid, s4, heq4, hcom4, hab4, hfl4, hfa4, hgam4, hrev4, harc4, hcat4, hfindg⟩ :=
          resolveGenre_shooter s3 cid hab3 hfa3 hfresh3 hlt3
        rw [heq4]
        simp only [hab4, reduceIte]
        have hc4 : findCategoryById s4.working cid = some ⟨cid, "Action"⟩ := by
          unfold findCategoryById at hfindc ⊢
          rw [hcat4]
          exact hfindc
        have ha4 : findArchivedById s4.working aid = some arow := by
          unfold findArchivedById at harch ⊢
          rw [harc4, harc3]
          exact harch
        have hpw4 : s4.working.archived.Pairwise
            (fun a b : ArchivedReview => a.id ≠ b.id) := by
          rw [harc4, harc3]
          exact harchids
        cases hex : findReviewByGameId s4.working gg.id with
        | some erow =>
            simp only [hex, txCatch, txWrite, txWriteErr, txRead, hab4, hfa4, reduceIte,
              reduceCtorEq, Tx.bind_apply, Tx.pure_apply]
            obtain ⟨s6, heq6, hcom6, hab6, hfl6, hfa6, hfin6⟩ :=
              persistMetadata_spec aid (trimStr (arow.review_json.game_name.getD "")) gid cid
                ⟨s4.committed,
                 updateReviewFull erow.id (jsStr arow.review_json.title)
                   (jsStr arow.review_json.review_text) arow.review_json.rating
                   (arow.review_json.positive_points.getD [])
                   (arow.review_json.negative_points.getD [])
                   (arow.review_json.tags.getD []) (some gid) (some gg.id) s4.working,
                 s4.events ++ [Ev.twrite], s4.writeCount + 1, none, false, s4.failed⟩
                arow rfl rfl hfindg hc4 ha4 hpw4
            rw [heq6]
            simp only []
            obtain ⟨gm, heq7⟩ := lookupGenreMeta_frame (some gid) s6 hab6
            rw [heq7]
            simp only []
            have hcommit : txCommit s6 = (some (),
                { s6 with committed := s6.working, events := s6.events ++ [Ev.tcommit] }) := by
              unfold txCommit
              rw [hab6]
              rfl
            rw [hcommit]
            have hfin : findArchivedById s6.working aid = some { arow with review_json :=
                { arow.review_json with
                    genre := some "Shooter",
                    categoryName := some "Action" } } := by
              rw [hfin6, if_neg hgname, ← hsome]
            exact hfin
        | none =>
            have hrevs4 : s4.working.reviews = db.reviews := by rw [hrev4, hrev3]
            have hanyr : s4.working.reviews.any (fun x => x.id = aid) = false := by
              rw [hrevs4, List.any_eq_false]
              intro x hx
              simp only [decide_eq_true_eq]
              exact hnorev x hx
            have hinsr : insertReview
                ⟨aid, some gg.id, jsStr arow.review_json.title,
                 jsStr arow.review_json.review_text, arow.review_json.rating,
                 arow.review_json.positive_points.getD [],
                 arow.review_json.negative_points.getD [], arow.review_json.tags.getD [],
                 some gid, none⟩ s4.working =
                some (⟨aid, some gg.id, jsStr arow.review_json.title,
                  jsStr arow.review_json.review_text, arow.review_json.rating,
                  arow.review_json.positive_points.getD [],
                  arow.review_json.negative_points.getD [], arow.review_json.tags.getD [],
                  some gid, none⟩,
                  { s4.working with reviews := s4.working.reviews ++
                    [⟨aid, some gg.id, jsStr arow.review_json.title,
                      jsStr arow.review_json.review_text, arow.review_json.rating,
                      arow.review_json.positive_points.getD [],
                      arow.review_json.negative_points.getD [],
                      arow.review_json.tags.getD [], some gid, none⟩] }) := by
              unfold insertReview
              rw [hanyr]
              rfl
            simp only [hex, txCatch, txWriteErr, hab4, hfa4, hinsr, reduceIte, reduceCtorEq,
              Tx.bind_apply, Tx.pure_apply]
            obtain ⟨s6, heq6, hcom6, hab6, hfl6, hfa6, hfin6⟩ :=
              persistMetadata_spec aid (trimStr (arow.review_json.game_name.getD "")) gid cid
                ⟨s4.committed,
                 { s4.working with reviews := s4.working.reviews ++
                    [⟨aid, some gg.id, jsStr arow.review_json.title,
                      jsStr arow.review_json.review_text, arow.review_json.rating,
                      arow.review_json.positive_points.getD [],
                      arow.review_json.negative_points.getD [],
                      arow.review_json.tags.getD [], some gid, none⟩] },
                 s4.events ++ [Ev.twrite], s4.writeCount + 1, none, false, s4.failed⟩
                arow rfl rfl hfindg hc4 ha4 hpw4
            rw [heq6]
            simp only []
            obtain ⟨gm, heq7⟩ := lookupGenreMeta_frame (some gid) s6 hab6
            rw [heq7]
            simp only []
            have hcommit : txCommit s6 = (some (),
                { s6 with committed := s6.working, events := s6.events ++ [Ev.tcommit] }) := by
              unfold txCommit
              rw [hab6]
              rfl
            rw [hcommit]
            have hfin : findArchivedById s6.working aid = some { arow with review_json :=
                { arow.review_json with
                    genre := some "Shooter",
                    categoryName := some "Action" } } := by
              rw [hfin6, if_neg hgname, ← hsome]
            exact hfin
    | none =>
        have hanyg : ({ db with nextId := db.nextId + 1 } : DB).games.any
            (fun g => g.id = db.nextId) = false := by
          rw [List.any_eq_false]
          intro x hx
          simp only [decide_eq_true_eq]
          exact Nat.ne_of_lt (hgamelt x hx)
        have hinsg : insertGame db.nextId (trimStr (arow.review_json.game_name.getD ""))
            { db with nextId := db.nextId + 1 } =
            some ((), { db with
              games := db.games ++ [⟨db.nextId, trimStr (arow.review_json.game_name.getD "")⟩],
              nextId := db.nextId + 1 }) := by
          unfold insertGame
          rw [hanyg]
          rfl
        simp only [materialize, runTx, initState, materializeTx, txCatch, Tx.bind_apply,
          Tx.pure_apply, Tx.pure, txBegin, txRead, txUuid, txWriteErr, harch, if_neg hgname,
          hfg, hinsg, reduceIte, reduceCtorEq, List.nil_append, List.cons_append,
          List.append_nil]
        obtain ⟨cid, s3, heq3, hcom3, hab3, hfl3, hfa3, hgam3, hrev3, harc3, hgen3, hnx3,
            hfindc⟩ :=
          resolveCategory_action
            ⟨db, { db with
                games := db.games ++
                  [⟨db.nextId, trimStr (arow.review_json.game_name.getD "")⟩],
                nextId := db.nextId + 1 },
              [Ev.tbegin, Ev.twrite], 0 + 1, none, false, false⟩ rfl rfl
            hcatids (fun c hc => Nat.lt_succ_of_lt (hcatlt c hc))
        rw [heq3]
        simp only []
        have hfresh3 : ∀ g ∈ s3.working.genres, lowerStr g.name ≠ "shooter" := by
          intro g hg
          rw [hgen3] at hg
          exact hfresh g hg
        have hlt3 : ∀ g ∈ s3.working.genres, g.id < s3.working.nextId := by
          intro g hg
          rw [hgen3] at hg
          exact Nat.lt_of_lt_of_le (Nat.lt_succ_of_lt (hgenlt g hg)) hnx3
        obtain ⟨gid, s4, heq4, hcom4, hab4, hfl4, hfa4, hgam4, hrev4, harc4, hcat4, hfindg⟩ :=
          resolveGenre_shooter s3 cid hab3 hfa3 hfresh3 hlt3
        rw [heq4]
        simp only [hab4, reduceIte]
        have hc4 : findCategoryById s4.working cid = some ⟨cid, "Action"⟩ := by
          unfold findCategoryById at hfindc ⊢
          rw [hcat4]
          exact hfindc
        have ha4 : findArchivedById s4.working aid = some arow := by
          unfold findArchivedById at harch ⊢
          rw [harc4, harc3]
          exact harch
        have hpw4 : s4.working.archived.Pairwise
            (fun a b : ArchivedReview => a.id ≠ b.id) := by
          rw [harc4, harc3]
          exact harchids
        cases hex : findReviewByGameId s4.working db.nextId with
        | some erow =>
            simp only [hex, txCatch, txWrite, txWriteErr, txRead, hab4, hfa4, reduceIte,
              reduceCtorEq, Tx.bind_apply, Tx.pure_apply]
            obtain ⟨s6, heq6, hcom6, hab6, hfl6, hfa6, hfin6⟩ :=
              persistMetadata_spec aid (trimStr (arow.review_json.game_name.getD "")) gid cid
                ⟨s4.committed,
                 updateReviewFull erow.id (jsStr arow.review_json.title)
                   (jsStr arow.review_json.review_text) arow.review_json.rating
                   (arow.review_json.positive_points.getD [])
                   (arow.review_json.negative_points.getD [])
                   (arow.review_json.tags.getD []) (some gid) (some db.nextId) s4.working,
                 s4.events ++ [Ev.twrite], s4.writeCount + 1, none, false, s4.failed⟩
                arow rfl rfl hfindg hc4 ha4 hpw4
            rw [heq6]
            simp only []
            obtain ⟨gm, heq7⟩ := lookupGenreMeta_frame (some gid) s6 hab6
            rw [heq7]
            simp only []
            have hcommit : txCommit s6 = (some (),
                { s6 with committed := s6.working, events := s6.events ++ [Ev.tcommit] }) := by
              unfold txCommit
              rw [hab6]
              rfl
            rw [hcommit]
            have hfin : findArchivedById s6.working aid = some { arow with review_json :=
                { arow.review_json with
                    genre := some "Shooter",
                    categoryName := some "Action" } } := by
              rw [hfin6, if_neg hgname, ← hsome]
            exact hfin
        | none =>
            have hrevs4 : s4.working.reviews = db.reviews := by rw [hrev4, hrev3]
            have hanyr : s4.working.reviews.any (fun x => x.id = aid) = false := by
              rw [hrevs4, List.any_eq_false]
              intro x hx
              simp only [decide_eq_true_eq]
              exact hnorev x hx
            have hinsr : insertReview
                ⟨aid, some db.nextId, jsStr arow.review_json.title,
                 jsStr arow.review_json.review_text, arow.review_json.rating,
                 arow.review_json.positive_points.getD [],
                 arow.review_json.negative_points.getD [], arow.review_json.tags.getD [],
                 some gid, none⟩ s4.working =
                some (⟨aid, some db.nextId, jsStr arow.review_json.title,
                  jsStr arow.review_json.review_text, arow.review_json.rating,
                  arow.review_json.positive_points.getD [],
                  arow.review_json.negative_points.getD [], arow.review_json.tags.getD [],
                  some gid, none⟩,
                  { s4.working with reviews := s4.working.reviews ++
                    [⟨aid, some db.nextId, jsStr arow.review_json.title,
                      jsStr arow.review_json.review_text, arow.review_json.rating,
                      arow.review_json.positive_points.getD [],
                      arow.review_json.negative_points.getD [],
                      arow.review_json.tags.getD [], some gid, none⟩] }) := by
              unfold insertReview
              rw [hanyr]
              rfl
            simp only [hex, txCatch, txWriteErr, hab4, hfa4, hinsr, reduceIte, reduceCtorEq,
              Tx.bind_apply, Tx.pure_apply]
            obtain ⟨s6, heq6, hcom6, hab6, hfl6, hfa6, hfin6⟩ :=
              persistMetadata_spec aid (trimStr (arow.review_json.game_name.getD "")) gid cid
                ⟨s4.committed,
                 { s4.working with reviews := s4.working.reviews ++
                    [⟨aid, some db.nextId, jsStr arow.review_json.title,
                      jsStr arow.review_json.review_text, arow.review_json.rating,
                      arow.review_json.positive_points.getD [],
                      arow.review_json.negative_points.getD [],
                      arow.review_json.tags.getD [], some gid, none⟩] },
                 s4.events ++ [Ev.twrite], s4.writeCount + 1, none, false, s4.failed⟩
                arow rfl rfl hfindg hc4 ha4 hpw4
            rw [heq6]
            simp only []
            obtain ⟨gm, heq7⟩ := lookupGenreMeta_frame (some gid) s6 hab6
            rw [heq7]
            simp only []
            have hcommit : txCommit s6 = (some (),
                { s6 with committed := s6.working, events := s6.events ++ [Ev.tcommit] }) := by
              unfold txCommit
              rw [hab6]
              rfl
            rw [hcommit]
            have hfin : findArchivedById s6.working aid = some { arow with review_json :=
                { arow.review_json with
                    genre := some "Shooter",
                    categoryName := some "Action" } } := by
              rw [hfin6, if_neg hgname, ← hsome]
            exact hfin

/-- C9, witness: on a one-row archive with game_name "G" and an empty genre
table, materializing with genre "Shooter" and category "Action" merges
exactly those two names into the archive JSON. -/
theorem c9_archive_roundtrip_after_materialize_witness :
    DBwf ⟨[], [], [], [],
      [⟨1, ⟨some "T", some "G", some "x", some 8, none, none, none, none, none⟩⟩], 2⟩ ∧
    findArchivedById
      (materialize
        ⟨[], [], [], [],
         [⟨1, ⟨some "T", some "G", some "x", some 8, none, none, none, none, none⟩⟩], 2⟩
        1 ⟨none, none, some "Shooter", some "Action"⟩ none).2.committed 1 =
      some ⟨1, ⟨some "T", some "G", some "x", some 8, some "Shooter", some "Action",
        none, none, none⟩⟩ :=
  ⟨by unfold DBwf; decide,
   c9_archive_roundtrip_after_materialize
     ⟨[], [], [], [],
      [⟨1, ⟨some "T", some "G", some "x", some 8, none, none, none, none, none⟩⟩], 2⟩
     1 ⟨1, ⟨some "T", some "G", some "x", some 8, none, none, none, none, none⟩⟩
     (by unfold DBwf; decide) (by decide) (by decide) (by decide) (by decide)⟩

/-- C9, counterexample to the claim as written: materializing with genre name
"Shooter" when a genre is already stored as "shooter" writes the stored
casing "shooter" — not the submitted "Shooter" — into the archive JSON. -/
theorem c9_counterexample :
    (materialize
        ⟨[], [], [], [⟨1, "shooter", none⟩],
         [⟨2, ⟨some "T", none, some "x", some 8, none, none, none, none, none⟩⟩], 3⟩
        2 ⟨none, none, some "Shooter", some "Action"⟩ none).2.committed.archived =
      [⟨2, ⟨some "T", none, some "x", some 8, some "shooter", some "Action",
        none, none, none⟩⟩] ∧
    (some "shooter" : Option String) ≠ some "Shooter" := by
  decide

/-- C1, counterexample to the claim as written: when a normalized review
already occupies the archive row's id, the insert of the materialize path
hits a primary-key conflict and the whole operation fails instead of
returning "created" — even though the archive's game is absent and has no
review of its own. -/
theorem c1_counterexample :
    (materialize
        ⟨[], [⟨1, none, some "t", some "r", some 5, [], [], [], none, none⟩], [], [],
         [⟨1, ⟨some "T", some "G", some "x", some 8, none, none, none, none, none⟩⟩], 2⟩
        1 ⟨none, none, none, none⟩ none).1 = some MatResult.failure ∧
    findGameByName
      ⟨[], [⟨1, none, some "t", some "r", some 5, [], [], [], none, none⟩], [], [],
       [⟨1, ⟨some "T", some "G", some "x", some 8, none, none, none, none, none⟩⟩], 2⟩
      "G" = none := by
  decide

/-- C5: when an archive edit supplies a nonblank game_name and the archived
review has a normalized twin, the game is resolved by the three-way policy:
an existing game with that exact name is reused (games table untouched); else,
if the review's current game carries exactly one review, that game row is
renamed in place (same id, new name, no new row); else a new game row is
appended and only the edited review is relinked. -/
theorem c5_safe_game_rename (db : DB) (aid : Nat) (arow : ArchivedReview) (rrow : Review)
    (incoming : ReviewJson) (gname : String)
    (hwf : DBwf db)
    (harch : findArchivedById db aid = some arow)
    (hrev : findReviewById db aid = some rrow)
    (hgn : incoming.game_name = some gname)
    (hne : gname ≠ "") :
    (∀ g, findGameByName db gname = some g →
      (putArchived db aid incoming none).1 = some PutResult.success ∧
      (putArchived db aid incoming none).2.committed.games = db.games ∧
      ∃ rv, findReviewById (putArchived db aid incoming none).2.committed aid = some rv ∧
        rv.game_id = some g.id) ∧
    (∀ oldGid gOld, findGameByName db gname = none → rrow.game_id = some oldGid →
      findGameById db oldGid = some gOld →
      (db.reviews.filter (fun r => r.game_id = some oldGid)).length = 1 →
      (putArchived db aid incoming none).1 = some PutResult.success ∧
      (putArchived db aid incoming none).2.committed.games.length = db.games.length ∧
      findGameById (putArchived db aid incoming none).2.committed oldGid =
        some { gOld with game_name := gname } ∧
      ∃ rv, findReviewById (putArchived db aid incoming none).2.committed aid = some rv ∧
        rv.game_id = some oldGid) ∧
    (∀ oldGid, findGameByName db gname = none → rrow.game_id = some oldGid →
      (db.reviews.filter (fun r => r.game_id = some oldGid)).length ≠ 1 →
      (putArchived db aid incoming none).1 = some PutResult.success ∧
      (putArchived db aid incoming none).2.committed.games =
        db.games ++ [⟨db.nextId, gname⟩] ∧
      (∃ rv, findReviewById (putArchived db aid incoming none).2.committed aid = some rv ∧
        rv.game_id = some db.nextId) ∧
      ∀ r ∈ db.reviews, r.id ≠ aid →
        r ∈ (putArchived db aid incoming none).2.committed.reviews) := by
  obtain ⟨-, -, -, -, -, -, hgameids, hgamelt, hrevids, -, -, harchids, -⟩ := hwf
  have haid : arow.id = aid := by simpa using List.find?_some harch
  have haidr : rrow.id = aid := by simpa using List.find?_some hrev
  have hmrg : findArchivedById (mergeArchived aid incoming db) aid =
      some { arow with review_json := mergeJson arow.review_json incoming } := by
    unfold findArchivedById mergeArchived
    simp only []
    exact find?_replace_key (fun a : ArchivedReview => decide (a.id = aid)) ArchivedReview.id
      (fun a => { a with review_json := mergeJson a.review_json incoming }) aid
      db.archived arow harch harchids (by simp [haid]) haid
  have hrev2 : findReviewById (mergeArchived aid incoming db) aid = some rrow := hrev
  have hgnm : (mergeJson arow.review_json incoming).game_name = some gname := by
    simp only [mergeJson, hgn, override]
  refine ⟨?_, ?_, ?_⟩
  · intro g hg
    have hg2 : findGameByName (mergeArchived aid incoming db) gname = some g := hg
    have hupd : findReviewById
        (updateReviewFromJson aid (mergeJson arow.review_json incoming) g.id
          (mergeArchived aid incoming db)) aid =
        some { rrow with
          title := jsStr (mergeJson arow.review_json incoming).title,
          review_text := jsStr (mergeJson arow.review_json incoming).review_text,
          rating := (mergeJson arow.review_json incoming).rating,
          positive_points := ((mergeJson arow.review_json incoming).positive_points).getD [],
          negative_points := ((mergeJson arow.review_json incoming).negative_points).getD [],
          tags := ((mergeJson arow.review_json incoming).tags).getD [],
          game_id := some g.id,
          genre := jsStr (mergeJson arow.review_json incoming).genre } := by
      unfold findReviewById updateReviewFromJson
      simp only []
      exact find?_replace_key (fun r : Review => decide (r.id = aid)) Review.id
        (fun r => { r with
          title := jsStr (mergeJson arow.review_json incoming).title,
          review_text := jsStr (mergeJson arow.review_json incoming).review_text,
          rating := (mergeJson arow.review_json incoming).rating,
          positive_points := ((mergeJson arow.review_json incoming).positive_points).getD [],
          negative_points := ((mergeJson arow.review_json incoming).negative_points).getD [],
          tags := ((mergeJson arow.review_json incoming).tags).getD [],
          game_id := some g.id,
          genre := jsStr (mergeJson arow.review_json incoming).genre }) aid
        db.reviews rrow hrev hrevids (by simp [haidr]) haidr
    simp only [putArchived, runTx, initState, putArchivedTx, txCatch, txBegin, txWrite,
      txWriteErr, txRead, txCommit, Tx.bind_apply, Tx.pure_apply, Tx.pure, hmrg, hrev2,
      hgnm, jsStr, if_neg hne, hg2, reduceIte, reduceCtorEq, List.nil_append,
      List.cons_append, List.append_nil]
    exact ⟨trivial, rfl, _, hupd, rfl⟩
  · intro oldGid gOld hng hold hgold hone
    have hgoldid : gOld.id = oldGid := by simpa using List.find?_some hgold
    have hng2 : findGameByName (mergeArchived aid incoming db) gname = none := hng
    have hone2 : ((mergeArchived aid incoming db).reviews.filter
        (fun r => r.game_id = some oldGid)).length = 1 := hone
    have hgfind : findGameById
        (renameGame oldGid gname (mergeArchived aid incoming db)) oldGid =
        some { gOld with game_name := gname } := by
      unfold findGameById renameGame
      simp only []
      exact find?_replace_key (fun g : Game => decide (g.id = oldGid)) Game.id
        (fun g => { g with game_name := gname }) oldGid
        db.games gOld hgold hgameids (by simp [hgoldid]) hgoldid
    have hupd : findReviewById
        (updateReviewFromJson aid (mergeJson arow.review_json incoming) oldGid
          (renameGame oldGid gname (mergeArchived aid incoming db))) aid =
        some { rrow with
          title := jsStr (mergeJson arow.review_json incoming).title,
          review_text := jsStr (mergeJson arow.review_json incoming).review_text,
          rating := (mergeJson arow.review_json incoming).rating,
          positive_points := ((mergeJson arow.review_json incoming).positive_points).getD [],
          negative_points := ((mergeJson arow.review_json incoming).negative_points).getD [],
          tags := ((mergeJson arow.review_json incoming).tags).getD [],
          game_id := some oldGid,
          genre := jsStr (mergeJson arow.review_json incoming).genre } := by
      unfold findReviewById updateReviewFromJson
      simp only []
      exact find?_replace_key (fun r : Review => decide (r.id = aid)) Review.id
        (fun r => { r with
          title := jsStr (mergeJson arow.review_json incoming).title,
          review_text := jsStr (mergeJson arow.review_json incoming).review_text,
          rating := (mergeJson arow.review_json incoming).rating,
          positive_points := ((mergeJson arow.review_json incoming).positive_points).getD [],
          negative_points := ((mergeJson arow.review_json incoming).negative_points).getD [],
          tags := ((mergeJson arow.review_json incoming).tags).getD [],
          game_id := some oldGid,
          genre := jsStr (mergeJson arow.review_json incoming).genre }) aid
        db.reviews rrow hrev hrevids (by simp [haidr]) haidr
    simp only [putArchived, runTx, initState, putArchivedTx, txCatch, txBegin, txWrite,
      txWriteErr, txRead, txCommit, Tx.bind_apply, Tx.pure_apply, Tx.pure, hmrg, hrev2,
      hgnm, jsStr, if_neg hne, hng2, hold, hone2, reduceIte, reduceCtorEq, List.nil_append,
      List.cons_append, List.append_nil]
    refine ⟨trivial, ?_, hgfind, _, hupd, rfl⟩
    show (db.games.map
      (fun g => if g.id = oldGid then { g with game_name := gname } else g)).length =
      db.games.length
    exact List.length_map _ _
  · intro oldGid hng hold hmany
    have hng2 : findGameByName (mergeArchived aid incoming db) gname = none := hng
    have hmany2 : ¬ ((mergeArchived aid incoming db).reviews.filter
        (fun r => r.game_id = some oldGid)).length = 1 := hmany
    have hnid : (mergeArchived aid incoming db).nextId = db.nextId := rfl
    have hanyg : (mergeArchived aid incoming db).games.any
        (fun g => g.id = db.nextId) = false := by
      show db.games.any (fun g => g.id = db.nextId) = false
      rw [List.any_eq_false]
      intro x hx
      simp only [decide_eq_true_eq]
      exact Nat.ne_of_lt (hgamelt x hx)
    have hinsg : insertGame db.nextId gname
        { mergeArchived aid incoming db with nextId := db.nextId + 1 } =
        some ((), { mergeArchived aid incoming db with
          games := (mergeArchived aid incoming db).games ++ [⟨db.nextId, gname⟩],
          nextId := db.nextId + 1 }) := by
      unfold insertGame
      simp only []
      rw [hanyg]
      rfl
    have hupd : findReviewById
        (updateReviewFromJson aid (mergeJson arow.review_json incoming) db.nextId
          { mergeArchived aid incoming db with
            games := (mergeArchived aid incoming db).games ++ [⟨db.nextId, gname⟩],
            nextId := db.nextId + 1 }) aid =
        some { rrow with
          title := jsStr (mergeJson arow.review_json incoming).title,
          review_text := jsStr (mergeJson arow.review_json incoming).review_text,
          rating := (mergeJson arow.review_json incoming).rating,
          positive_points := ((mergeJson arow.review_json incoming).positive_points).getD [],
          negative_points := ((mergeJson arow.review_json incoming).negative_points).getD [],
          tags := ((mergeJson arow.review_json incoming).tags).getD [],
          game_id := some db.nextId,
          genre := jsStr (mergeJson arow.review_json incoming).genre } := by
      unfold findReviewById updateReviewFromJson
      simp only []
      exact find?_replace_key (fun r : Review => decide (r.id = aid)) Review.id
        (fun r => { r with
          title := jsStr (mergeJson arow.review_json incoming).title,
          review_text := jsStr (mergeJson arow.review_json incoming).review_text,
          rating := (mergeJson arow.review_json incoming).rating,
          positive_points := ((mergeJson arow.review_json incoming).positive_points).getD [],
          negative_points := ((mergeJson arow.review_json incoming).negative_points).getD [],
          tags := ((mergeJson arow.review_json incoming).tags).getD [],
          game_id := some db.nextId,
          genre := jsStr (mergeJson arow.review_json incoming).genre }) aid
        db.reviews rrow hrev hrevids (by simp [haidr]) haidr
    simp only [putArchived, runTx, initState, putArchivedTx, txCatch, txBegin, txWrite,
      txWriteErr, txUuid, txRead, txCommit, Tx.bind_apply, Tx.pure_apply, Tx.pure, hmrg,
      hrev2, hgnm, jsStr, if_neg hne, hng2, hold, if_neg hmany2, hnid, hinsg, reduceIte,
      reduceCtorEq, List.nil_append, List.cons_append, List.append_nil]
    refine ⟨trivial, rfl, ⟨_, hupd, rfl⟩, ?_⟩
    intro r hr hrne
    exact List.mem_map.mpr ⟨r, hr, if_neg hrne⟩

/-- C5, witness: renaming game "Old" (one linked review) to "New" through an
archive edit renames the game row in place. -/
theorem c5_safe_game_rename_witness :
    (putArchived
        ⟨[⟨1, "Old"⟩], [⟨2, some 1, some "t", some "r", some 5, [], [], [], none, none⟩],
         [], [], [⟨2, ⟨some "T", some "New", some "x", some 8, none, none, none, none, none⟩⟩],
         3⟩
        2 ⟨none, some "New", none, none, none, none, none, none, none⟩ none).1 =
      some PutResult.success ∧
    (putArchived
        ⟨[⟨1, "Old"⟩], [⟨2, some 1, some "t", some "r", some 5, [], [], [], none, none⟩],
         [], [], [⟨2, ⟨some "T", some "New", some "x", some 8, none, none, none, none, none⟩⟩],
         3⟩
        2 ⟨none, some "New", none, none, none, none, none, none, none⟩ none).2.committed.games =
      [⟨1, "New"⟩] ∧
    ∃ rv, findReviewById
        (putArchived
          ⟨[⟨1, "Old"⟩], [⟨2, some 1, some "t", some "r", some 5, [], [], [], none, none⟩],
           [], [],
           [⟨2, ⟨some "T", some "New", some "x", some 8, none, none, none, none, none⟩⟩],
           3⟩
          2 ⟨none, some "New", none, none, none, none, none, none, none⟩ none).2.committed 2 =
        some rv ∧
      rv.game_id = some 1 := by
  have h := (c5_safe_game_rename
    ⟨[⟨1, "Old"⟩], [⟨2, some 1, some "t", some "r", some 5, [], [], [], none, none⟩],
     [], [], [⟨2, ⟨some "T", some "New", some "x", some 8, none, none, none, none, none⟩⟩],
     3⟩
    2 ⟨2, ⟨some "T", some "New", some "x", some 8, none, none, none, none, none⟩⟩
    ⟨2, some 1, some "t", some "r", some 5, [], [], [], none, none⟩
    ⟨none, some "New", none, none, none, none, none, none, none⟩ "New"
    (by unfold DBwf; decide) (by decide) (by decide) rfl (by decide)).2.1
    1 ⟨1, "Old"⟩ (by decide) rfl (by decide) (by decide)
  exact ⟨h.1, by decide, h.2.2.2⟩

theorem atomic_pure {α : Type} (a : α) : Atomic (Tx.pure a) := by
  intro s
  exact ⟨rfl, fun h => ⟨h, rfl⟩, fun _ hf =>
    ⟨fun hfl => absurd (hf.symm.trans hfl) (by decide), fun _ => hf⟩⟩

theorem atomic_throw {α : Type} : Atomic (txThrow : Tx α) := by
  intro s
  exact ⟨rfl, fun h => ⟨h, rfl⟩, fun _ hf =>
    ⟨fun hfl => absurd (hf.symm.trans hfl) (by decide), fun _ => hf⟩⟩

theorem atomic_uuid : Atomic txUuid := by
  intro s
  exact ⟨rfl, fun h => ⟨h, rfl⟩, fun _ hf =>
    ⟨fun hfl => absurd (hf.symm.trans hfl) (by decide), fun _ => hf⟩⟩

theorem atomic_read {α : Type} (f : DB → α) : Atomic (txRead f) := by
  intro s
  cases hab : s.aborted
  · have hx : txRead f s = (some (f s.working), s) := by
      unfold txRead
      rw [hab]
      rfl
    rw [hx]
    exact ⟨rfl, fun h => absurd h (by decide), fun _ hf =>
      ⟨fun hfl => absurd (hf.symm.trans hfl) (by decide), fun _ => hf⟩⟩
  · have hx : txRead f s = (none, s) := by
      unfold txRead
      rw [hab]
      rfl
    rw [hx]
    exact ⟨rfl, fun _ => ⟨hab, rfl⟩, fun h _ => absurd h (by decide)⟩

theorem atomic_writeErr {α : Type} (f : DB → Option (α × DB)) : Atomic (txWriteErr f) := by
  intro s
  cases hab : s.aborted
  · by_cases hfa : s.failAt = some s.writeCount
    · have hx : txWriteErr f s = (none,
          { s with writeCount := s.writeCount + 1, aborted := true, failed := true }) := by
        unfold txWriteErr
        rw [hab, if_neg (by decide), if_pos hfa]
      rw [hx]
      exact ⟨rfl, fun h => absurd h (by decide), fun _ _ =>
        ⟨fun _ => rfl, fun habf => Bool.noConfusion habf⟩⟩
    · have hx : txWriteErr f s = match f s.working with
          | some (a, db2) => (some a,
              { s with
                  working := db2,
                  writeCount := s.writeCount + 1,
                  events := s.events ++ [Ev.twrite] })
          | none => (none,
              { s with
                  writeCount := s.writeCount + 1,
                  aborted := true,
                  failed := true }) := by
        unfold txWriteErr
        rw [hab, if_neg (by decide), if_neg hfa]
      cases hf : f s.working with
      | none =>
          rw [hf] at hx
          rw [hx]
          exact ⟨rfl, fun h => absurd h (by decide), fun _ _ =>
            ⟨fun _ => rfl, fun habf => Bool.noConfusion habf⟩⟩
      | some p =>
          rcases p with ⟨a, db2⟩
          rw [hf] at hx
          rw [hx]
          exact ⟨rfl, fun h => absurd h (by decide), fun _ hfl =>
            ⟨fun hfl2 => absurd (hfl.symm.trans hfl2) (by decide), fun _ => hfl⟩⟩
  · have hx : txWriteErr f s = (none, s) := by
      unfold txWriteErr
      rw [hab]
      rfl
    rw [hx]
    exact ⟨rfl, fun _ => ⟨hab, rfl⟩, fun h _ => absurd h (by decide)⟩

theorem atomic_write (f : DB → DB) : Atomic (txWrite f) := atomic_writeErr _

theorem atomic_writeRet {α : Type} (f : DB → α × DB) : Atomic (txWriteRet f) :=
  atomic_writeErr _

theorem atomic_ite {α : Type} (c : Prop) [Decidable c] (x y : Tx α)
    (hx : Atomic x) (hy : Atomic y) : Atomic (if c then x else y) := by
  by_cases h : c
  · rw [if_pos h]
    exact hx
  · rw [if_neg h]
    exact hy

theorem atomic_bind {α β : Type} (a : Tx α) (b : α → Tx β)
    (ha : Atomic a) (hb : ∀ v, Atomic (b v)) : Atomic (a >>= b) := by
  intro s
  have h1 := ha s
  rcases hr : a s with ⟨r1, s1⟩
  rw [hr] at h1
  simp only [] at h1
  simp only [Tx.bind_apply, hr]
  cases r1 with
  | none =>
      simp only []
      exact h1
  | some v =>
      simp only []
      have h2 := hb v s1
      refine ⟨h2.1.trans h1.1, ?_, ?_⟩
      · intro habt
        have k1 := h1.2.1 habt
        have k2 := h2.2.1 k1.1
        exact ⟨k2.1, k2.2.trans k1.2⟩
      · intro hab hf
        by_cases hab1 : s1.aborted = true
        · refine ⟨fun _ => (h2.2.1 hab1).1, fun habf => ?_⟩
          exact absurd (habf.symm.trans (h2.2.1 hab1).1) (by decide)
        · have hab1f : s1.aborted = false := by
            revert hab1
            cases s1.aborted <;> simp
          have hf1 : s1.failed = false := (h1.2.2 hab hf).2 hab1f
          exact h2.2.2 hab1f hf1

theorem atomic_catch_pure {α : Type} (x : Tx α) (a : α) (hx : Atomic x) :
    Atomic (txCatch x (Pure.pure a)) := by
  intro s
  have h1 := hx s
  rcases hr : x s with ⟨r1, s1⟩
  rw [hr] at h1
  simp only [] at h1
  cases r1 with
  | some v =>
      have hc : txCatch x (Pure.pure a) s = (some v, s1) := by
        unfold txCatch
        rw [hr]
      rw [hc]
      exact h1
  | none =>
      have hc : txCatch x (Pure.pure a) s = (some a, s1) := by
        unfold txCatch
        rw [hr]
        rfl
      rw [hc]
      exact h1

theorem quiet_pure {α : Type} (a : α) : Quiet (Tx.pure a) := fun _ => ⟨rfl, rfl⟩

theorem quiet_throw {α : Type} : Quiet (txThrow : Tx α) := fun _ => ⟨rfl, rfl⟩

theorem quiet_read {α : Type} (f : DB → α) : Quiet (txRead f) := by
  intro s
  cases hab : s.aborted
  · have hx : txRead f s = (some (f s.working), s) := by
      unfold txRead
      rw [hab]
      rfl
    rw [hx]
    exact ⟨rfl, rfl⟩
  · have hx : txRead f s = (none, s) := by
      unfold txRead
      rw [hab]
      rfl
    rw [hx]
    exact ⟨rfl, rfl⟩

theorem quiet_bind {α β : Type} (a : Tx α) (b : α → Tx β)
    (ha : Quiet a) (hb : ∀ v, Quiet (b v)) : Quiet (a >>= b) := by
  intro s
  have h1 := ha s
  rcases hr : a s with ⟨r1, s1⟩
  rw [hr] at h1
  simp only [] at h1
  simp only [Tx.bind_apply, hr]
  cases r1 with
  | none =>
      simp only []
      exact h1
  | some v =>
      simp only []
      have h2 := hb v s1
      exact ⟨h2.1.trans h1.1, h2.2.trans h1.2⟩

theorem bodyOk_pure {α : Type} (a : α) : BodyOk (Tx.pure a) :=
  fun _ => ⟨fun _ => ⟨rfl, rfl⟩, fun _ _ _ => rfl⟩

theorem bodyOk_throw {α : Type} : BodyOk (txThrow : Tx α) :=
  fun _ => ⟨fun _ => ⟨rfl, rfl⟩, fun _ _ _ => rfl⟩

theorem bodyOk_rollback_quiet {α : Type} (b : Unit → Tx α) (hb : ∀ v, Quiet (b v)) :
    BodyOk (txRollback >>= b) := by
  intro s
  have hR : txRollback s = (some (),
      { s with
          working := s.committed,
          aborted := false,
          events := s.events ++ [Ev.trollback] }) := rfl
  simp only [Tx.bind_apply, hR]
  have h2 := hb ()
    { s with
        working := s.committed,
        aborted := false,
        events := s.events ++ [Ev.trollback] }
  exact ⟨fun _ => ⟨h2.1, h2.2⟩, fun _ _ _ => h2.1⟩

theorem bodyOk_commit_quiet {α : Type} (b : Unit → Tx α) (hb : ∀ v, Quiet (b v)) :
    BodyOk (txCommit >>= b) := by
  intro s
  cases hab : s.aborted
  · have hC : txCommit s = (some (),
        { s with
            committed := s.working,
            events := s.events ++ [Ev.tcommit] }) := by
      unfold txCommit
      rw [hab]
      rfl
    simp only [Tx.bind_apply, hC]
    have h2 := hb ()
      { s with
          committed := s.working,
          events := s.events ++ [Ev.tcommit] }
    refine ⟨fun habt => absurd habt (by decide), fun _ hf hfl => ?_⟩
    exact absurd (hf.symm.trans (h2.2.symm.trans hfl)) (by decide)
  · have hC : txCommit s = (some (),
        { s with
            working := s.committed,
            aborted := false,
            events := s.events ++ [Ev.trollback] }) := by
      unfold txCommit
      rw [hab]
      rfl
    simp only [Tx.bind_apply, hC]
    have h2 := hb ()
      { s with
          working := s.committed,
          aborted := false,
          events := s.events ++ [Ev.trollback] }
    exact ⟨fun _ => ⟨h2.1, h2.2⟩, fun habf _ _ => absurd habf (by decide)⟩

theorem bodyOk_bind_atomic {α β : Type} (a : Tx α) (b : α → Tx β)
    (ha : Atomic a) (hb : ∀ v, BodyOk (b v)) : BodyOk (a >>= b) := by
  intro s
  have h1 := ha s
  rcases hr : a s with ⟨r1, s1⟩
  rw [hr] at h1
  simp only [] at h1
  simp only [Tx.bind_apply, hr]
  cases r1 with
  | none =>
      simp only []
      exact ⟨fun habt => ⟨h1.1, (h1.2.1 habt).2⟩, fun _ _ _ => h1.1⟩
  | some v =>
      simp only []
      have h2 := hb v s1
      refine ⟨?_, ?_⟩
      · intro habt
        have k1 := h1.2.1 habt
        have k2 := h2.1 k1.1
        exact ⟨k2.1.trans h1.1, k2.2.trans k1.2⟩
      · intro hab hf hfl
        by_cases hab1 : s1.aborted = true
        · exact ((h2.1 hab1).1).trans h1.1
        · have hab1f : s1.aborted = false := by
            revert hab1
            cases s1.aborted <;> simp
          have hf1 : s1.failed = false := (h1.2.2 hab hf).2 hab1f
          exact (h2.2 hab1f hf1 hfl).trans h1.1

theorem atomic_resolveCategory (cid : Option Nat) (cnm : Option String) :
    Atomic (resolveCategory cid cnm) := by
  unfold resolveCategory
  cases jsId cid with
  | some i => exact atomic_pure _
  | none =>
      cases jsStr cnm with
      | some cn => exact atomic_bind _ _ (atomic_writeRet _) (fun r => atomic_pure _)
      | none => exact atomic_pure _

theorem atomic_resolveGenre (gid : Option Nat) (gnm : Option String) (fc : Option Nat) :
    Atomic (resolveGenre gid gnm fc) := by
  unfold resolveGenre
  cases jsId gid with
  | some i => exact atomic_pure _
  | none =>
      cases jsStr gnm with
      | some gn => exact atomic_bind _ _ (atomic_writeRet _) (fun g => atomic_pure _)
      | none => exact atomic_pure _

theorem atomic_persistMetadata (aid : Nat) (gn : String) (fg : Option Nat) :
    Atomic (persistMetadata aid gn fg) := by
  unfold persistMetadata
  simp only []
  by_cases hgn : gn = ""
  · rw [if_pos hgn]
    refine atomic_bind _ _ (atomic_pure _) ?_
    intro _
    cases fg with
    | none => exact atomic_pure _
    | some gid =>
        refine atomic_bind _ _ (atomic_read _) ?_
        intro nm
        refine atomic_bind _ _ ?_ ?_
        · cases nm.1 with
          | some gname => exact atomic_write _
          | none => exact atomic_pure _
        · intro _
          cases nm.2 with
          | some cname => exact atomic_write _
          | none => exact atomic_pure _
  · rw [if_neg hgn]
    refine atomic_bind _ _ (atomic_write _) ?_
    intro _
    cases fg with
    | none => exact atomic_pure _
    | some gid =>
        refine atomic_bind _ _ (atomic_read _) ?_
        intro nm
        refine atomic_bind _ _ ?_ ?_
        · cases nm.1 with
          | some gname => exact atomic_write _
          | none => exact atomic_pure _
        · intro _
          cases nm.2 with
          | some cname => exact atomic_write _
          | none => exact atomic_pure _

theorem atomic_lookupGenreMeta (fg : Option Nat) : Atomic (lookupGenreMeta fg) := by
  unfold lookupGenreMeta
  cases fg with
  | some gid => exact atomic_read _
  | none => exact atomic_pure _

theorem catch_begin_atomic {α : Type} (K : Unit → Tx α) (r : α) (db : DB) (fa : Option Nat)
    (hK : BodyOk (K ())) :
    (txCatch (txBegin >>= K) (txRollback >>= fun _ => Pure.pure r)
        (initState db fa)).2.failed = true →
    (txCatch (txBegin >>= K) (txRollback >>= fun _ => Pure.pure r)
        (initState db fa)).2.committed = db := by
  have h2 := hK (⟨db, db, [Ev.tbegin], 0, fa, false, false⟩ : TxState)
  rcases hr : K () (⟨db, db, [Ev.tbegin], 0, fa, false, false⟩ : TxState) with ⟨r1, s1⟩
  rw [hr] at h2
  simp only [] at h2
  have hrun : txCatch (txBegin >>= K) (txRollback >>= fun _ => Pure.pure r)
      (initState db fa) =
      (match (r1, s1) with
       | (some a, s2) => (some a, s2)
       | (none, s2) => (some r,
           { s2 with
               working := s2.committed,
               aborted := false,
               events := s2.events ++ [Ev.trollback] })) := by
    unfold txCatch
    simp only [Tx.bind_apply]
    have hB : txBegin (initState db fa) =
        (some (), (⟨db, db, [Ev.tbegin], 0, fa, false, false⟩ : TxState)) := rfl
    rw [hB]
    simp only []
    rw [hr]
    cases r1 <;> rfl
  rw [hrun]
  cases r1 <;> intro hfl <;> exact h2.2 trivial trivial hfl

/-- C6: every transactional handler is atomic under statement failure — if a
run of `POST /api/reviews`, materialize, the review-genre patch, the archive
edit, or `POST /api/genres` ends with a failed write statement (the fault
index `fa` can make any write raise), the committed database is exactly the
starting one: no rows from earlier steps of that operation remain. -/
theorem c6_transactional_atomicity (db : DB) (fa : Option Nat) (aid : Nat) (body : GBody)
    (input : NewReviewInput) (incoming : ReviewJson) (nm : Option String) :
    ((createReview db input fa).2.failed = true →
      (createReview db input fa).2.committed = db) ∧
    ((materialize db aid body fa).2.failed = true →
      (materialize db aid body fa).2.committed = db) ∧
    ((patchReviewGenre db aid body fa).2.failed = true →
      (patchReviewGenre db aid body fa).2.committed = db) ∧
    ((putArchived db aid incoming fa).2.failed = true →
      (putArchived db aid incoming fa).2.committed = db) ∧
    ((createGenre db nm body fa).2.failed = true →
      (createGenre db nm body fa).2.committed = db) := by
  refine ⟨?_, ?_, ?_, ?_, ?_⟩
  · intro hfl
    unfold createReview at hfl ⊢
    by_cases hv : jsStr input.title = none ∨ jsStr input.game_name = none ∨
        jsStr input.review_text = none ∨ input.rating = none
    · rw [if_pos hv] at hfl
      simp [initState] at hfl
    · rw [if_neg hv] at hfl ⊢
      refine catch_begin_atomic _ CreateReviewResult.failure db fa ?_ hfl
      refine bodyOk_bind_atomic _ _ (atomic_read _) ?_
      intro gameResult
      refine bodyOk_bind_atomic _ _ ?_ ?_
      · cases gameResult with
        | some g => exact atomic_pure _
        | none =>
            refine atomic_bind _ _ atomic_uuid ?_
            intro gid
            exact atomic_bind _ _ (atomic_writeErr _) (fun _ => atomic_pure _)
      · intro gameId
        refine bodyOk_bind_atomic _ _ atomic_uuid ?_
        intro reviewId
        refine bodyOk_bind_atomic _ _ (atomic_writeErr _) ?_
        intro inserted
        refine bodyOk_bind_atomic _ _ (atomic_writeErr _) ?_
        intro _
        exact bodyOk_commit_quiet _ (fun _ => quiet_pure _)
  · intro hfl
    refine catch_begin_atomic _ MatResult.failure db fa ?_ hfl
    refine bodyOk_bind_atomic _ _ (atomic_read _) ?_
    intro ar
    cases ar with
    | none => exact bodyOk_rollback_quiet _ (fun _ => quiet_pure _)
    | some arow =>
        refine bodyOk_bind_atomic _ _ ?_ ?_
        · refine atomic_ite _ _ _ (atomic_pure _) ?_
          refine atomic_bind _ _ (atomic_read _) ?_
          intro g
          cases g with
          | some grow => exact atomic_pure _
          | none =>
              refine atomic_bind _ _ atomic_uuid ?_
              intro newId
              exact atomic_bind _ _ (atomic_writeErr _) (fun _ => atomic_pure _)
        · intro gameId
          refine bodyOk_bind_atomic _ _ (atomic_resolveCategory _ _) ?_
          intro fc
          refine bodyOk_bind_atomic _ _ (atomic_resolveGenre _ _ _) ?_
          intro fg
          refine bodyOk_bind_atomic _ _ ?_ ?_
          · cases gameId with
            | some gid => exact atomic_read _
            | none => exact atomic_pure _
          · intro existing
            cases existing with
            | some erow =>
                refine bodyOk_bind_atomic _ _ (atomic_write _) ?_
                intro _
                refine bodyOk_bind_atomic _ _ (atomic_read _) ?_
                intro updated
                refine bodyOk_bind_atomic _ _
                  (atomic_catch_pure _ _ (atomic_persistMetadata _ _ _)) ?_
                intro _
                refine bodyOk_bind_atomic _ _ (atomic_lookupGenreMeta _) ?_
                intro gm
                exact bodyOk_commit_quiet _ (fun _ => quiet_pure _)
            | none =>
                refine bodyOk_bind_atomic _ _ (atomic_writeErr _) ?_
                intro inserted
                refine bodyOk_bind_atomic _ _
                  (atomic_catch_pure _ _ (atomic_persistMetadata _ _ _)) ?_
                intro _
                refine bodyOk_bind_atomic _ _ (atomic_lookupGenreMeta _) ?_
                intro gm
                exact bodyOk_commit_quiet _ (fun _ => quiet_pure _)
  · intro hfl
    refine catch_begin_atomic _ PatchResult.failure db fa ?_ hfl
    refine bodyOk_bind_atomic _ _ (atomic_resolveCategory _ _) ?_
    intro fc
    refine bodyOk_bind_atomic _ _ (atomic_resolveGenre _ _ _) ?_
    intro fg
    cases fg with
    | none => exact bodyOk_pure _
    | some gid =>
        refine bodyOk_bind_atomic _ _ (atomic_writeRet _) ?_
        intro upd
        cases upd with
        | none =>
            refine bodyOk_bind_atomic _ _ (atomic_read _) ?_
            intro arch
            cases arch with
            | some _ =>
                refine bodyOk_bind_atomic _ _ (atomic_read _) ?_
                intro gRes
                cases gRes with
                | none => exact bodyOk_throw
                | some grow =>
                    refine bodyOk_bind_atomic _ _ (atomic_write _) ?_
                    intro _
                    exact bodyOk_commit_quiet _ (fun _ => quiet_pure _)
            | none => exact bodyOk_rollback_quiet _ (fun _ => quiet_pure _)
        | some r0 =>
            exact bodyOk_commit_quiet _ (fun _ =>
              quiet_bind _ _ (quiet_read _) (fun g => quiet_pure _))
  · intro hfl
    refine catch_begin_atomic _ PutResult.failure db fa ?_ hfl
    refine bodyOk_bind_atomic _ _ (atomic_write _) ?_
    intro _
    refine bodyOk_bind_atomic _ _ (atomic_read _) ?_
    intro merged
    cases merged with
    | none => exact bodyOk_rollback_quiet _ (fun _ => quiet_pure _)
    | some arow =>
        refine bodyOk_bind_atomic _ _ (atomic_read _) ?_
        intro reviewRow
        refine bodyOk_bind_atomic _ _ ?_ ?_
        · cases reviewRow with
          | none => exact atomic_pure _
          | some rrow =>
              refine atomic_bind _ _ ?_ ?_
              · cases jsStr arow.review_json.game_name with
                | none => exact atomic_pure _
                | some gname =>
                    refine atomic_bind _ _ (atomic_read _) ?_
                    intro eg
                    cases eg with
                    | some g => exact atomic_pure _
                    | none =>
                        cases rrow.game_id with
                        | some oldGameId =>
                            refine atomic_bind _ _ (atomic_read _) ?_
                            intro refCount
                            refine atomic_ite _ _ _ ?_ ?_
                            · exact atomic_bind _ _ (atomic_write _)
                                (fun _ => atomic_pure _)
                            · refine atomic_bind _ _ atomic_uuid ?_
                              intro nid
                              exact atomic_bind _ _ (atomic_writeErr _)
                                (fun _ => atomic_pure _)
                        | none =>
                            refine atomic_bind _ _ atomic_uuid ?_
                            intro nid
                            exact atomic_bind _ _ (atomic_writeErr _)
                              (fun _ => atomic_pure _)
              · intro gameId
                cases gameId with
                | some gid => exact atomic_write _
                | none => exact atomic_write _
        · intro _
          exact bodyOk_commit_quiet _ (fun _ => quiet_pure _)
  · intro hfl
    unfold createGenre at hfl ⊢
    cases nm with
    | none => simp [initState] at hfl
    | some n =>
        simp only [] at hfl ⊢
        by_cases ht : trimStr n = ""
        · rw [if_pos ht] at hfl
          simp [initState] at hfl
        · rw [if_neg ht] at hfl ⊢
          refine catch_begin_atomic _ GenreCreateResult.failure db fa ?_ hfl
          refine bodyOk_bind_atomic _ _ (atomic_resolveCategory _ _) ?_
          intro fc
          refine bodyOk_bind_atomic _ _ (atomic_writeRet _) ?_
          intro created
          refine bodyOk_commit_quiet _ ?_
          intro _
          cases created.category_id with
          | some cid =>
              refine quiet_bind _ _ (quiet_read _) ?_
              intro c
              cases c with
              | none => exact quiet_throw
              | some crow => exact quiet_pure _
          | none => exact quiet_pure _

/-- C6, witness: injecting a failure into the first write of `POST
/api/reviews` leaves the committed database exactly as it started. -/
theorem c6_transactional_atomicity_witness :
    (createReview ⟨[], [], [], [], [], 1⟩
        ⟨some "T", some "G", some "x", some 8, none, none, none, none⟩
        (some 0)).2.failed = true ∧
    (createReview ⟨[], [], [], [], [], 1⟩
        ⟨some "T", some "G", some "x", some 8, none, none, none, none⟩
        (some 0)).2.committed = ⟨[], [], [], [], [], 1⟩ :=
  ⟨by decide,
   (c6_transactional_atomicity ⟨[], [], [], [], [], 1⟩ (some 0) 0
     ⟨none, none, none, none⟩
     ⟨some "T", some "G", some "x", some 8, none, none, none, none⟩
     ⟨none, none, none, none, none, none, none, none, none⟩ none).1 (by decide)⟩

/-- C4, witness: creating "ACTION" then "Action" on an empty database yields
the same id twice and stores the last casing. -/
theorem c4_category_upsert_idempotent_witness :
    ∃ i,
      (createCategory ⟨[], [], [], [], [], 1⟩ (some "ACTION")).1 =
        CatResult.created i "ACTION" ∧
      (createCategory (createCategory ⟨[], [], [], [], [], 1⟩ (some "ACTION")).2
        (some "Action")).1 = CatResult.created i "Action" ∧
      findCategoryById
        (createCategory (createCategory ⟨[], [], [], [], [], 1⟩ (some "ACTION")).2
          (some "Action")).2 i = some ⟨i, "Action"⟩ :=
  c4_category_upsert_idempotent ⟨[], [], [], [], [], 1⟩ "ACTION" "Action"
    (by unfold DBwf; decide) (by decide) (by decide) (by decide)

/-- C3, witness: upserting genre "rpg" with no category keeps the stored
"RPG" row linked to its "Fantasy" category. -/
theorem c3_genre_category_coalesce_witness :
    findGenreById
      (createGenre ⟨[], [], [⟨1, "Fantasy"⟩], [⟨2, "RPG", some 1⟩], [], 3⟩
        (some "rpg") ⟨none, none, none, none⟩ none).2.committed 2 =
      some ⟨2, "RPG", some 1⟩ :=
  c3_genre_category_coalesce ⟨[], [], [⟨1, "Fantasy"⟩], [⟨2, "RPG", some 1⟩], [], 3⟩
    "rpg" ⟨2, "RPG", some 1⟩ 1 ⟨none, none, none, none⟩
    (by unfold DBwf; decide) (by decide) (by decide) rfl (by decide) rfl rfl

/-- C7, witness: a review-genre request with neither genreId nor genreName is
rejected and the committed database is unchanged. -/
theorem c7_validation_no_committed_write_witness :
    (patchReviewGenre ⟨[], [], [], [], [], 1⟩ 3 ⟨none, none, none, none⟩ none).1 =
      some PatchResult.badRequest ∧
    (patchReviewGenre ⟨[], [], [], [], [], 1⟩ 3 ⟨none, none, none, none⟩ none).2.committed =
      ⟨[], [], [], [], [], 1⟩ :=
  c7_validation_no_committed_write ⟨[], [], [], [], [], 1⟩ 3 ⟨none, none, none, none⟩ rfl rfl

/-- C10, witness: patching the genre of an archived-only id merges the
resolved names into the archive JSON and creates no review row. -/
theorem c10_archived_only_genre_update_witness :
    (patchReviewGenre
        ⟨[], [], [⟨1, "Action"⟩], [⟨2, "Shooter", some 1⟩],
         [⟨5, ⟨some "T", none, some "x", some 8, none, none, none, none, none⟩⟩], 6⟩
        5 ⟨some 2, none, none, none⟩ none).1 =
      some (PatchResult.okArchived 5 ⟨2, "Shooter", some 1, some "Action"⟩) ∧
    (patchReviewGenre
        ⟨[], [], [⟨1, "Action"⟩], [⟨2, "Shooter", some 1⟩],
         [⟨5, ⟨some "T", none, some "x", some 8, none, none, none, none, none⟩⟩], 6⟩
        5 ⟨some 2, none, none, none⟩ none).2.committed.reviews = [] ∧
    findArchivedById
      (patchReviewGenre
        ⟨[], [], [⟨1, "Action"⟩], [⟨2, "Shooter", some 1⟩],
         [⟨5, ⟨some "T", none, some "x", some 8, none, none, none, none, none⟩⟩], 6⟩
        5 ⟨some 2, none, none, none⟩ none).2.committed 5 =
      some ⟨5, ⟨some "T", none, some "x", some 8, some "Shooter", some "Action",
        none, none, none⟩⟩ :=
  c10_archived_only_genre_update
    ⟨[], [], [⟨1, "Action"⟩], [⟨2, "Shooter", some 1⟩],
     [⟨5, ⟨some "T", none, some "x", some 8, none, none, none, none, none⟩⟩], 6⟩
    5 2 ⟨some 2, none, none, none⟩
    ⟨5, ⟨some "T", none, some "x", some 8, none, none, none, none, none⟩⟩
    ⟨"Shooter", some 1, some "Action"⟩
    (by unfold DBwf; decide) (by decide) (by decide) rfl rfl rfl (by decide)

/-- C1, witness: materializing an archive row for the absent game "G" with no
review at the archive id creates the review under the archive id. -/
theorem c1_materialize_creates_when_absent_witness :
    ∃ rv gm,
      (materialize ⟨[], [], [], [],
        [⟨1, ⟨some "T", some "G", some "x", some 8, none, none, none, none, none⟩⟩], 2⟩
        1 ⟨none, none, none, none⟩ none).1 = some (MatResult.ok (some rv) gm "created") ∧
      rv.id = 1 ∧
      findReviewById
        (materialize ⟨[], [], [], [],
          [⟨1, ⟨some "T", some "G", some "x", some 8, none, none, none, none, none⟩⟩], 2⟩
          1 ⟨none, none, none, none⟩ none).2.committed 1 = some rv :=
  c1_materialize_creates_when_absent
    ⟨[], [], [], [],
     [⟨1, ⟨some "T", some "G", some "x", some 8, none, none, none, none, none⟩⟩], 2⟩
    1 ⟨none, none, none, none⟩
    ⟨1, ⟨some "T", some "G", some "x", some 8, none, none, none, none, none⟩⟩
    (by unfold DBwf; decide) (by decide) (by decide) (by decide) (by decide)

/-- C2, witness: materializing a second archive row naming game "G2", which
already has exactly one review, updates that review in place. -/
theorem c2_materialize_updates_when_present_witness :
    ∃ rv gm,
      (materialize
        ⟨[⟨1, "G2"⟩], [⟨2, some 1, some "t", some "r", some 5, [], [], [], none, none⟩],
         [], [], [⟨3, ⟨some "T", some "G2", some "y", some 9, none, none, none, none, none⟩⟩],
         4⟩
        3 ⟨none, none, none, none⟩ none).1 = some (MatResult.ok (some rv) gm "updated") ∧
      rv.id = 2 ∧ rv.id ≠ 3 ∧
      (materialize
        ⟨[⟨1, "G2"⟩], [⟨2, some 1, some "t", some "r", some 5, [], [], [], none, none⟩],
         [], [], [⟨3, ⟨some "T", some "G2", some "y", some 9, none, none, none, none, none⟩⟩],
         4⟩
        3 ⟨none, none, none, none⟩ none).2.committed.reviews.filter
          (fun r => r.game_id = some 1) = [rv] :=
  c2_materialize_updates_when_present
    ⟨[⟨1, "G2"⟩], [⟨2, some 1, some "t", some "r", some 5, [], [], [], none, none⟩],
     [], [], [⟨3, ⟨some "T", some "G2", some "y", some 9, none, none, none, none, none⟩⟩], 4⟩
    3 ⟨none, none, none, none⟩
    ⟨3, ⟨some "T", some "G2", some "y", some 9, none, none, none, none, none⟩⟩
    ⟨1, "G2"⟩ ⟨2, some 1, some "t", some "r", some 5, [], [], [], none, none⟩
    (by unfold DBwf; decide) (by decide) (by decide) (by decide) (by decide) (by decide)

end ReviewsApp
